import Mathlib

/-!
Shallow embedding of the cross-collection analysis engine of the
personal-knowledge-management backend (src/app): the generic ChromaDB
wrapper (src/app/database.py) and the three analysis modules
(src/app/modules/priorities.py, src/app/modules/connections.py,
src/app/modules/suggestions.py), together with proofs settling the
frozen claims about them.

Modelling conventions:
* Python floats are modelled as exact rationals (`ℚ`); the code only
  compares scores against decimal constants and performs +,*,/,min.
* The vector store (ChromaDB) is a per-collection list of items in
  insertion order; `collection.get()` returns all items in that order,
  `collection.add` appends, `collection.update` replaces in place.
  Nearest-neighbour queries and embedding cosine similarity are
  external collaborators and are modelled as an oracle (`Env`).
* `datetime.now()` is an injected timestamp string, `generate_id()` an
  injected injective id supply driven by a threaded counter.
* Python dict values occurring in the core's metadata are strings,
  numbers, booleans, None, or lists of strings (`MVal`).  Reads via
  `dict.get(k, default)` that the code immediately uses numerically are
  modelled by typed reads returning the default on a missing key.
* `HTTPException` outcomes are modelled by `Except Err`.
-/

set_option maxRecDepth 100000
set_option maxHeartbeats 1000000

/-- Metadata values occurring in the analysis core: strings, numbers
(Python floats as `ℚ`, ints as `Int`), booleans, `None`, and lists of
strings (`source_modules`, `source_items`). -/
inductive MVal where
  | s (v : String)
  | q (v : ℚ)
  | i (v : Int)
  | b (v : Bool)
  | null
  | strList (v : List String)
deriving DecidableEq, Repr

/-- A Python metadata dict: ordered key/value pairs (insertion order). -/
abbrev Metadata := List (String × MVal)

/-- `dict.get(k)` / `dict[k]`: first binding of the key, if any. -/
def Metadata.get (m : Metadata) (k : String) : Option MVal :=
  (m.find? (fun p => p.1 = k)).map (fun p => p.2)

/-- `dict[k] = v` on a copy: replace the binding in place if the key is
present, otherwise append it. -/
def Metadata.set (m : Metadata) (k : String) (v : MVal) : Metadata :=
  if m.any (fun p => p.1 = k) then
    m.map (fun p => if p.1 = k then (k, v) else p)
  else m ++ [(k, v)]

/-- `dict.get(k, default)` used numerically (float). -/
def mGetQ (m : Metadata) (k : String) (d : ℚ) : ℚ :=
  match m.get k with
  | some (.q x) => x
  | _ => d

/-- `dict.get(k, default)` used numerically (int). -/
def mGetI (m : Metadata) (k : String) (d : Int) : Int :=
  match m.get k with
  | some (.i x) => x
  | _ => d

/-- `dict.get(k, default)` kept as a raw value. -/
def mGetMV (m : Metadata) (k : String) (d : MVal) : MVal :=
  (m.get k).getD d

/-- A stored item: `{id, text (document), metadata}`. -/
structure Item where
  id : String
  text : String
  metadata : Metadata
deriving DecidableEq, Repr

/-- The seven collections of `ChromaDBManager` (see `COLLECTIONS` in
src/app/config.py), each a list of items in insertion order. -/
structure DB where
  identity : List Item
  business : List Item
  reminders : List Item
  learnings : List Item
  connections : List Item
  priorities : List Item
  suggestions : List Item
deriving DecidableEq, Repr

/-- Collection lookup by key.  `get_collection` raises for an unknown
key; the analysis core only ever uses the seven fixed keys after
validating request parameters, so the junk value `[]` is unreachable. -/
def DB.coll (db : DB) (k : String) : List Item :=
  if k = "identity" then db.identity
  else if k = "business" then db.business
  else if k = "reminders" then db.reminders
  else if k = "learnings" then db.learnings
  else if k = "connections" then db.connections
  else if k = "priorities" then db.priorities
  else if k = "suggestions" then db.suggestions
  else []

/-- Replace one collection (used by add/update). Unknown keys are
unreachable in the core (see `DB.coll`). -/
def DB.setColl (db : DB) (k : String) (l : List Item) : DB :=
  if k = "identity" then { db with identity := l }
  else if k = "business" then { db with business := l }
  else if k = "reminders" then { db with reminders := l }
  else if k = "learnings" then { db with learnings := l }
  else if k = "connections" then { db with connections := l }
  else if k = "priorities" then { db with priorities := l }
  else if k = "suggestions" then { db with suggestions := l }
  else db

/-- `ChromaDBManager.list_items(collection_key, limit, offset)`
(src/app/database.py:127-146): fetch the whole collection, then slice
`[min(offset,n) : min(offset+limit,n)]`. -/
def list_items_paged (db : DB) (k : String) (limit offset : Nat) : List Item :=
  ((db.coll k).drop offset).take limit

/-- `list_items` as called throughout the analysis core, i.e. with the
default arguments `limit=100, offset=0`. -/
def list_items (db : DB) (k : String) : List Item :=
  list_items_paged db k 100 0

/-- `ChromaDBManager.get_item(collection_key, id)`: the stored item with
that id, or `None`. -/
def get_item (db : DB) (k id : String) : Option Item :=
  (db.coll k).find? (fun it => it.id = id)

/-- `ChromaDBManager.add_item(collection_key, id, text, metadata)`:
append and return the written item. -/
def add_item (db : DB) (k id text : String) (md : Metadata) : Item × DB :=
  let it : Item := ⟨id, text, md⟩
  (it, db.setColl k (db.coll k ++ [it]))

/-- `ChromaDBManager.update_item(collection_key, id, text, metadata)`:
`None` models the `ValueError` raised when the id is absent; otherwise
the item is replaced in place, fields defaulting to the current ones. -/
def update_item (db : DB) (k id : String) (text? : Option String)
    (md? : Option Metadata) : Option (Item × DB) :=
  match get_item db k id with
  | none => none
  | some cur =>
    let newText := text?.getD cur.text
    let newMd := md?.getD cur.metadata
    let newItem : Item := ⟨id, newText, newMd⟩
    some (newItem,
      db.setColl k ((db.coll k).map (fun it => if it.id = id then newItem else it)))

/-- External collaborators and ambient effects injected into the core:
the embedding model (`encode` + `cos_sim`, a pure function of the two
texts), nearest-neighbour queries (`collection.query`, applied to the
queried collection's current items and returning (item, distance)
pairs in ascending distance order), the id generator and the clock. -/
structure Env where
  sim : String → String → ℚ
  query : List Item → String → Nat → List (Item × ℚ)
  freshId : Nat → String
  now : String

/-- HTTP-level failure outcomes (`HTTPException` status classes). -/
inductive Err where
  | badRequest (msg : String)
  | notFound (msg : String)
  | serverError (msg : String)
deriving DecidableEq, Repr

/-- The fixed analyzable modules (`valid_modules` in each handler). -/
def validModules : List String :=
  ["identity", "business", "reminders", "learnings"]

/-- Python's `text[:n] + "..." if len(text) > n else text`. -/
def trunc (n : Nat) (s : String) : String :=
  if n < s.length then s.take n ++ "..." else s

/-- Iteration order of a Python dict built by indexed insertion: keys in
first-occurrence order. -/
def dedupFirst {α : Type} [DecidableEq α] (xs : List α) : List α :=
  xs.foldl (fun acc x => if x ∈ acc then acc else acc ++ [x]) []

/-- The double loop `for i, x1 in enumerate(l): for j, x2 in enumerate(l):
if i >= j: continue`: ordered pairs with the first strictly earlier. -/
def ordPairs {α : Type} : List α → List (α × α)
  | [] => []
  | x :: xs => xs.map (fun y => (x, y)) ++ ordPairs xs

/-- Python string `<` (lexicographic by code point), written so that the
kernel can evaluate it (`String.lt` itself does not reduce). -/
def lexLt : List Char → List Char → Bool
  | [], [] => false
  | [], _ :: _ => true
  | _ :: _, [] => false
  | a :: as, b :: bs => if a < b then true else if b < a then false else lexLt as bs

/-- `module1 < module2` on collection names. -/
def strLt (a b : String) : Bool := lexLt a.data b.data

/-- Abstraction of Python's `"{:.2f}".format(x)` / f-string float
formatting, used only inside human-readable `reason` strings. -/
def pyFmt2 (x : ℚ) : String := toString x

/-- Does the success projection of an `Except` hold? -/
def isOkE {α : Type} (x : Except Err α) : Bool :=
  match x with
  | .ok _ => true
  | .error _ => false

instance {ε α : Type} [DecidableEq ε] [DecidableEq α] : DecidableEq (Except ε α) :=
  fun x y =>
    match x, y with
    | .ok a, .ok b =>
      if h : a = b then .isTrue (congrArg Except.ok h)
      else .isFalse (fun hc => h (Except.ok.inj hc))
    | .error a, .error b =>
      if h : a = b then .isTrue (congrArg Except.error h)
      else .isFalse (fun hc => h (Except.error.inj hc))
    | .ok _, .error _ => .isFalse (fun hc => Except.noConfusion hc)
    | .error _, .ok _ => .isFalse (fun hc => Except.noConfusion hc)

/-! ## PriorityReviewer: `review` (src/app/modules/priorities.py:23-157) -/

/-- `PriorityReviewRequest` (src/app/models/schemas.py:186-192). -/
structure ReviewReq where
  module : Option String
  min_similarity : ℚ
  max_items : Nat
  include_low_relevance : Bool
  include_duplicates : Bool
deriving DecidableEq, Repr

/-- One side of a reported duplicate pair: id, 100-char-truncated text,
module. -/
structure DupSide where
  id : String
  text : String
  module : String
deriving DecidableEq, Repr

/-- An entry of `potential_duplicates`. -/
structure DupPair where
  item1 : DupSide
  item2 : DupSide
  similarity : ℚ
  suggested_action : String
deriving DecidableEq, Repr

/-- An entry of `low_relevance_items`. -/
structure LowRel where
  id : String
  text : String
  module : String
  relevance_score : ℚ
  usage_count : Int
  suggested_action : String
deriving DecidableEq, Repr

/-- An entry of `suggested_actions`: either
`{"action": "merge_duplicates", "items", "module", "reason"}` or
`{"action": "archive_item", "item_id", "module", "reason"}`. -/
inductive SuggestedAction where
  | merge (items : List String) (module reason : String)
  | archive (item_id module reason : String)
deriving DecidableEq, Repr

/-- `PriorityReviewResult` (src/app/models/schemas.py:207-212). -/
structure ReviewResult where
  total_items_reviewed : Nat
  potential_duplicates : List DupPair
  low_relevance_items : List LowRel
  suggested_actions : List SuggestedAction
deriving DecidableEq, Repr

/-- The linear-scan match used everywhere a `PriorityRecord` is looked
up: `p["metadata"].get("item_id") == item_id and
p["metadata"].get("module") == module`. -/
def prMatches (itemId module : String) (p : Item) : Bool :=
  decide (p.metadata.get "item_id" = some (.s itemId)) &&
    decide (p.metadata.get "module" = some (.s module))

/-- `f"Duplicados con similitud {similarity:.2f}"`. -/
def mergeReason (sim : ℚ) : String :=
  "Duplicados con similitud " ++ pyFmt2 sim

/-- `f"Baja relevancia ({relevance_score:.2f}) y sin uso"`. -/
def archiveReason (rel : ℚ) : String :=
  "Baja relevancia (" ++ pyFmt2 rel ++ ") y sin uso"

/-- Duplicate detection for one module (priorities.py:61-101): pairwise
cosine similarity over every ordered pair `(i, j)` with `i < j`; pairs at
or above the threshold are reported, pairs strictly above `0.95` are
flagged `"merge"` and also emit a `merge_duplicates` suggested action. -/
def dupScan (env : Env) (minSim : ℚ) (module : String) (items : List Item) :
    List DupPair × List SuggestedAction :=
  let hits := (ordPairs items).filterMap (fun p =>
    let similarity := env.sim p.1.text p.2.text
    if minSim ≤ similarity then
      some { item1 := ⟨p.1.id, trunc 100 p.1.text, module⟩
             item2 := ⟨p.2.id, trunc 100 p.2.text, module⟩
             similarity := similarity
             suggested_action := if (0.95:ℚ) < similarity then "merge" else "review" }
    else none)
  (hits, hits.filterMap (fun d =>
    if (0.95:ℚ) < d.similarity then
      some (.merge [d.item1.id, d.item2.id] module (mergeReason d.similarity))
    else none))

/-- Relevance computation for one item (priorities.py:107-124): baseline
`min(1.0, len(text)/1000)`; if a `PriorityRecord` matches (linear scan of
`list_items("priorities")`), its stored `relevance_score` (defaulting to
the baseline) and `usage_count` (defaulting to 0) are used, and a
`usage_count` of 0 multiplies the relevance by 0.8. -/
def lowCompute (db : DB) (module : String) (it : Item) : ℚ × Int :=
  let priority_records := list_items db "priorities"
  let priority_record := priority_records.find? (prMatches it.id module)
  let baseline : ℚ := min 1 ((it.text.length : ℚ) / 1000)
  match priority_record with
  | some p =>
    let rel := mGetQ p.metadata "relevance_score" baseline
    let usage := mGetI p.metadata "usage_count" 0
    (if usage = 0 then rel * 0.8 else rel, usage)
  | none => (baseline, 0)

/-- Low-relevance detection for one module (priorities.py:104-145):
items with computed relevance below 0.3 are listed; below 0.2 with zero
usage they are flagged `"archive"` and also emit an `archive_item`
suggested action. -/
def lowScan (db : DB) (module : String) (items : List Item) :
    List LowRel × List SuggestedAction :=
  let entries := items.filterMap (fun it =>
    let rl := lowCompute db module it
    if rl.1 < (0.3:ℚ) then
      some { id := it.id, text := trunc 100 it.text, module := module
             relevance_score := rl.1, usage_count := rl.2
             suggested_action :=
               if rl.1 < (0.2:ℚ) ∧ rl.2 = 0 then "archive" else "review" }
    else none)
  (entries, entries.filterMap (fun e =>
    if e.relevance_score < (0.2:ℚ) ∧ e.usage_count = 0 then
      some (.archive e.id module (archiveReason e.relevance_score))
    else none))

/-- Per-module review pass: the length of the fetched items is counted
before the `max_items` truncation (priorities.py:51-58). -/
structure ModuleReview where
  fetched : Nat
  dups : List DupPair
  lows : List LowRel
  acts : List SuggestedAction
deriving DecidableEq, Repr

def reviewModule (db : DB) (env : Env) (req : ReviewReq) (module : String) :
    ModuleReview :=
  let items := list_items db module
  let itemsT := if req.max_items < items.length then items.take req.max_items else items
  let dupsA :=
    if req.include_duplicates ∧ 1 < itemsT.length then
      dupScan env req.min_similarity module itemsT
    else ([], [])
  let lowsA :=
    if req.include_low_relevance then lowScan db module itemsT else ([], [])
  ⟨items.length, dupsA.1, lowsA.1, dupsA.2 ++ lowsA.2⟩

/-- `[request.module] if request.module else valid_modules`. -/
def reviewModules (req : ReviewReq) : List String :=
  match req.module with
  | some m => [m]
  | none => validModules

/-- `review_priorities` (POST /prioridad/revisar, priorities.py:23-157).
Validation rejects any target module outside the fixed set; the body is
read-only, so the store comes back unchanged. -/
def review_priorities (req : ReviewReq) (db : DB) (env : Env) :
    Except Err (ReviewResult × DB) :=
  match (reviewModules req).find? (fun m => !(validModules.contains m)) with
  | some m => .error (.badRequest ("Modulo " ++ m ++ " no valido"))
  | none =>
    let per := (reviewModules req).map (reviewModule db env req)
    .ok ({ total_items_reviewed := (per.map (fun r => r.fetched)).sum
           potential_duplicates := per.flatMap (fun r => r.dups)
           low_relevance_items := per.flatMap (fun r => r.lows)
           suggested_actions := per.flatMap (fun r => r.acts) }, db)

/-! ## PriorityReviewer: `adjust` (src/app/modules/priorities.py:159-242) -/

/-- `PriorityAdjustRequest` (src/app/models/schemas.py:194-199). -/
structure AdjustReq where
  item_id : String
  module : String
  priority_level : String
  relevance_score : Option ℚ
deriving DecidableEq, Repr

/-- `f"Prioridad para item '{text[:50]}...' en módulo '{module}'"`. -/
def priorityText (text module : String) : String :=
  "Prioridad para item \x27" ++ text.take 50 ++ "...\x27 en modulo \x27" ++ module ++ "\x27"

/-- The metadata of a freshly created `PriorityRecord`
(priorities.py:212-224). -/
def newPriorityMetadata (itemId module level : String) (rel : ℚ) (now : String) :
    Metadata :=
  [("item_id", .s itemId), ("module", .s module), ("priority_level", .s level),
   ("relevance_score", .q rel), ("usage_count", .i 0), ("last_accessed", .s now),
   ("is_duplicate", .b false), ("duplicate_of", .null),
   ("created_at", .s now), ("updated_at", .s now)]

/-- The merge-update of an existing record's metadata in `adjust`
(priorities.py:192-197): set `priority_level`, optionally
`relevance_score`, and refresh `updated_at`. -/
def adjustUpdatedMetadata (md : Metadata) (req : AdjustReq) (now : String) : Metadata :=
  let md1 := md.set "priority_level" (.s req.priority_level)
  let md2 := match req.relevance_score with
    | some r => md1.set "relevance_score" (.q r)
    | none => md1
  md2.set "updated_at" (.s now)

/-- `adjust_priority` (POST /prioridad/ajustar, priorities.py:159-242):
validate module and priority level, require the target item, then
update the first `PriorityRecord` matching `(item_id, module)` in the
first 100 priority records, or create a new one. -/
def adjust_priority (req : AdjustReq) (db : DB) (env : Env) (n : Nat) :
    Except Err (Item × DB × Nat) :=
  if !(validModules.contains req.module) then
    .error (.badRequest ("Modulo " ++ req.module ++ " no valido"))
  else if !((["high", "medium", "low"] : List String).contains req.priority_level) then
    .error (.badRequest ("Nivel de prioridad " ++ req.priority_level ++ " no valido"))
  else
    match get_item db req.module req.item_id with
    | none => .error (.notFound ("Item " ++ req.item_id ++ " no encontrado"))
    | some item =>
      let priority_records := list_items db "priorities"
      match priority_records.find? (prMatches req.item_id req.module) with
      | some p =>
        match update_item db "priorities" p.id
            (some (priorityText item.text req.module))
            (some (adjustUpdatedMetadata p.metadata req env.now)) with
        | some r => .ok (r.1, r.2, n)
        | none => .error (.serverError "update failed")
      | none =>
        let priority_id := env.freshId n
        let md := newPriorityMetadata req.item_id req.module req.priority_level
          (req.relevance_score.getD 0.5) env.now
        let r := add_item db "priorities" priority_id
          (priorityText item.text req.module) md
        .ok (r.1, r.2, n + 1)

/-! ## PriorityReviewer: `optimize` (src/app/modules/priorities.py:244-472) -/

/-- `PriorityOptimizeRequest` (src/app/models/schemas.py:201-205). -/
structure OptimizeReq where
  module : Option String
  auto_merge_duplicates : Bool
  auto_archive_low_relevance : Bool
deriving DecidableEq, Repr

/-- An entry of `merged_duplicates` (priorities.py:320-331). -/
structure MergeEntry where
  primary_id : String
  primary_text : String
  primary_module : String
  duplicate_id : String
  duplicate_text : String
  duplicate_module : String
deriving DecidableEq, Repr

/-- An entry of `archived_items` (priorities.py:369-374). -/
structure ArchEntry where
  id : String
  text : String
  module : String
  relevance_score : ℚ
deriving DecidableEq, Repr

/-- An entry of `reprioritized_items` (priorities.py:452-458).  The old
and new priority are raw metadata values. -/
structure RepriEntry where
  id : String
  text : String
  module : String
  old_priority : MVal
  new_priority : MVal
deriving DecidableEq, Repr

/-- `PriorityOptimizeResult` (src/app/models/schemas.py). -/
structure OptimizeResult where
  total_items_optimized : Nat
  merged_duplicates : List MergeEntry
  archived_items : List ArchEntry
  reprioritized_items : List RepriEntry
deriving DecidableEq, Repr

/-- The fixed review settings used internally by `optimize`
(priorities.py:266-272). -/
def optimizeReviewReq (module : Option String) : ReviewReq :=
  { module := module, min_similarity := 0.9, max_items := 1000
    include_low_relevance := true, include_duplicates := true }

/-- `defaultdict(list)` grouping of `"merge"`-flagged duplicate pairs by
their first member's id (priorities.py:277-288): keys in first-seen
order, each key's members in iteration order. -/
def mergeGroups (dups : List DupPair) : List (String × List DupSide) :=
  let flagged := dups.filter (fun d => d.suggested_action = "merge")
  (dedupFirst (flagged.map (fun d => d.item1.id))).map (fun k =>
    (k, (flagged.filter (fun d => d.item1.id = k)).map (fun d => d.item2)))

/-- Processing one duplicate member of a merge group
(priorities.py:305-350): fetch it, record the merge, mark its
`PriorityRecord` (if one is found in the first 100) as a duplicate, and
count it. -/
def mergeMember (env : Env) (primary_id : String) (primary_item : Item)
    (module : String) (st : DB × List MergeEntry × Nat) (dup : DupSide) :
    Except Err (DB × List MergeEntry × Nat) :=
  match get_item st.1 dup.module dup.id with
  | none => .ok st
  | some duplicate_item =>
    let acc := st.2.1 ++ [⟨primary_id, trunc 100 primary_item.text, module,
      dup.id, trunc 100 duplicate_item.text, dup.module⟩]
    let priority_records := list_items st.1 "priorities"
    match priority_records.find? (prMatches dup.id dup.module) with
    | some p =>
      let md := ((p.metadata.set "is_duplicate" (.b true)).set
        "duplicate_of" (.s primary_id)).set "updated_at" (.s env.now)
      match update_item st.1 "priorities" p.id none (some md) with
      | some r => .ok (r.2, acc, st.2.2 + 1)
      | none => .error (.serverError "update failed")
    | none => .ok (st.1, acc, st.2.2 + 1)

/-- Processing one merge group (priorities.py:288-350): the module of
the primary item is looked up among all reported duplicate pairs (not
only the merge-flagged ones); a missing module or primary item skips
the group. -/
def mergeGroupStep (env : Env) (dups : List DupPair)
    (st : DB × List MergeEntry × Nat) (g : String × List DupSide) :
    Except Err (DB × List MergeEntry × Nat) :=
  match dups.find? (fun d => d.item1.id = g.1) with
  | none => .ok st
  | some d0 =>
    match get_item st.1 d0.item1.module g.1 with
    | none => .ok st
    | some primary_item =>
      g.2.foldlM (mergeMember env g.1 primary_item d0.item1.module) st

/-- The auto-merge pass (priorities.py:276-350). -/
def mergePass (env : Env) (dups : List DupPair) (st : DB × List MergeEntry × Nat) :
    Except Err (DB × List MergeEntry × Nat) :=
  (mergeGroups dups).foldlM (mergeGroupStep env dups) st

/-- Processing one low-relevance finding in the auto-archive pass
(priorities.py:352-415): only `"archive"`-flagged entries act; the
matching `PriorityRecord` (first 100) is set to `"archived"`, or a new
archived record is created. -/
def archiveStep (env : Env) (st : DB × List ArchEntry × Nat × Nat) (e : LowRel) :
    Except Err (DB × List ArchEntry × Nat × Nat) :=
  if e.suggested_action = "archive" then
    match get_item st.1 e.module e.id with
    | none => .ok st
    | some low_relevance_item =>
      let acc := st.2.1 ++ [⟨e.id, trunc 100 low_relevance_item.text, e.module,
        e.relevance_score⟩]
      let priority_records := list_items st.1 "priorities"
      match priority_records.find? (prMatches e.id e.module) with
      | some p =>
        let md := (p.metadata.set "priority_level" (.s "archived")).set
          "updated_at" (.s env.now)
        match update_item st.1 "priorities" p.id none (some md) with
        | some r => .ok (r.2, acc, st.2.2.1 + 1, st.2.2.2)
        | none => .error (.serverError "update failed")
      | none =>
        let priority_id := env.freshId st.2.2.2
        let md : Metadata :=
          [("item_id", .s e.id), ("module", .s e.module),
           ("priority_level", .s "archived"),
           ("relevance_score", .q e.relevance_score), ("usage_count", .i 0),
           ("last_accessed", .s env.now), ("is_duplicate", .b false),
           ("duplicate_of", .null), ("created_at", .s env.now),
           ("updated_at", .s env.now)]
        let r := add_item st.1 "priorities" priority_id
          (priorityText low_relevance_item.text e.module) md
        .ok (r.2, acc, st.2.2.1 + 1, st.2.2.2 + 1)
  else .ok st

/-- The auto-archive pass (priorities.py:352-415). -/
def archivePass (env : Env) (lows : List LowRel) (st : DB × List ArchEntry × Nat × Nat) :
    Except Err (DB × List ArchEntry × Nat × Nat) :=
  lows.foldlM (archiveStep env) st

/-- One item of the reprioritization pass (priorities.py:422-460): if a
`PriorityRecord` matches (first 100 of the current store), recompute the
priority from `usage_count` and `relevance_score` and persist a change
unless the record is archived. -/
def repriStep (env : Env) (module : String) (st : DB × List RepriEntry × Nat)
    (item : Item) : Except Err (DB × List RepriEntry × Nat) :=
  let priority_records := list_items st.1 "priorities"
  match priority_records.find? (prMatches item.id module) with
  | none => .ok st
  | some p =>
    let usage_count := mGetI p.metadata "usage_count" 0
    let relevance_score := mGetQ p.metadata "relevance_score" 0.5
    let current_priority := mGetMV p.metadata "priority_level" (.s "medium")
    let new_priority :=
      if 10 < usage_count ∧ (0.7:ℚ) < relevance_score then MVal.s "high"
      else if usage_count < 2 ∧ relevance_score < (0.3:ℚ) then MVal.s "low"
      else current_priority
    if new_priority ≠ current_priority ∧ current_priority ≠ MVal.s "archived" then
      let md := (p.metadata.set "priority_level" new_priority).set
        "updated_at" (.s env.now)
      match update_item st.1 "priorities" p.id none (some md) with
      | some r =>
        .ok (r.2, st.2.1 ++ [⟨item.id, trunc 100 item.text, module,
          current_priority, new_priority⟩], st.2.2 + 1)
      | none => .error (.serverError "update failed")
    else .ok st

/-- The reprioritization pass (priorities.py:417-460): per target
module, iterate the first 100 items against the evolving store. -/
def repriPass (env : Env) (mods : List String) (st : DB × List RepriEntry × Nat) :
    Except Err (DB × List RepriEntry × Nat) :=
  mods.foldlM (fun st m => (list_items st.1 m).foldlM (repriStep env m) st) st

/-- `[request.module] if request.module else valid_modules` in
`optimize` (priorities.py:250-252); definitionally the same module list
as the one its internal review targets. -/
def optModules (req : OptimizeReq) : List String :=
  match req.module with
  | some m => [m]
  | none => validModules

/-- `optimize_priorities` (POST /prioridad/optimizar,
priorities.py:244-472): validate, run the fixed internal review, then
the optional merge and archive passes and the unconditional
reprioritization pass. -/
def optimize_priorities (req : OptimizeReq) (db : DB) (env : Env) (n : Nat) :
    Except Err (OptimizeResult × DB × Nat) := do
  match (optModules req).find? (fun m => !(validModules.contains m)) with
  | some m => .error (.badRequest ("Modulo " ++ m ++ " no valido"))
  | none => do
    let rv ← review_priorities (optimizeReviewReq req.module) db env
    let review_result := rv.1
    let db := rv.2
    let stM ←
      if req.auto_merge_duplicates then
        mergePass env review_result.potential_duplicates (db, [], 0)
      else pure (db, [], 0)
    let stA ←
      if req.auto_archive_low_relevance then
        archivePass env review_result.low_relevance_items (stM.1, [], stM.2.2, n)
      else pure (stM.1, [], stM.2.2, n)
    let stR ← repriPass env (optModules req) (stA.1, [], stA.2.2.1)
    return ({ total_items_optimized := stR.2.2
              merged_duplicates := stM.2.1
              archived_items := stA.2.1
              reprioritized_items := stR.2.1 }, stR.1, stA.2.2.2)

/-! ## ConnectionAnalyzer: `analyze` (src/app/modules/connections.py:21-112) -/

/-- `ConnectionAnalysisRequest` (src/app/models/schemas.py:115-120). -/
structure AnalyzeReq where
  item_id : String
  module : String
  min_similarity : ℚ
  max_connections : Nat
deriving DecidableEq, Repr

/-- `ConnectionAnalysisResult` (src/app/models/schemas.py:122-127). -/
structure AnalysisResult where
  source_id : String
  source_module : String
  connections : List Item
  total : Nat
deriving DecidableEq, Repr

/-- The metadata of a persisted connection (connections.py:76-85). -/
def connectionMetadata (req : AnalyzeReq) (targetId targetModule : String)
    (strength : ℚ) (now : String) : Metadata :=
  [("source_id", .s req.item_id), ("source_module", .s req.module),
   ("target_id", .s targetId), ("target_module", .s targetModule),
   ("connection_type", .s "semantic"), ("strength", .q strength),
   ("created_at", .s now), ("updated_at", .s now)]

/-- `f"Conexión entre '{source[:50]}...' y '{target[:50]}...'"`. -/
def connectionText (sourceText targetText : String) : String :=
  "Conexion entre \x27" ++ sourceText.take 50 ++ "...\x27 y \x27" ++
    targetText.take 50 ++ "...\x27"

/-- The state threaded through `analyze`'s module loop: the evolving
store, the id counter, the connections created so far, and a ghost
trace of the `query_items` calls issued (collection key, `n_results`). -/
structure AnState where
  db : DB
  n : Nat
  conns : List Item
  trace : List (String × Nat)

/-- One result of one module's query (connections.py:64-100): skip the
self-match, convert distance to similarity, and at or above the
threshold persist a connection record immediately. -/
def analyzeHit (env : Env) (req : AnalyzeReq) (sourceText module : String)
    (st : AnState) (r : Item × ℚ) : AnState :=
  if module = req.module ∧ r.1.id = req.item_id then st
  else
    let similarity := 1 - r.2
    if req.min_similarity ≤ similarity then
      let connection_id := env.freshId st.n
      let ctext := connectionText sourceText r.1.text
      let cmd := connectionMetadata req r.1.id module similarity env.now
      let ar := add_item st.db "connections" connection_id ctext cmd
      { st with db := ar.2, n := st.n + 1, conns := st.conns ++ [ar.1] }
    else st

/-- One module of `analyze`'s loop (connections.py:50-100): skip the
(unreachable) `"connections"` guard, query the module with the source
text, then process every result. -/
def analyzeModule (env : Env) (req : AnalyzeReq) (sourceText : String)
    (st : AnState) (module : String) : AnState :=
  if module = "connections" then st
  else
    (env.query (st.db.coll module) sourceText req.max_connections).foldl
      (analyzeHit env req sourceText module)
      { st with trace := st.trace ++ [(module, req.max_connections)] }

/-- `analyze_connections` (POST /conexiones/analizar,
connections.py:21-112). -/
def analyze_connections (req : AnalyzeReq) (db : DB) (env : Env) (n : Nat) :
    Except Err (AnalysisResult × DB × Nat × List (String × Nat)) :=
  if !(validModules.contains req.module) then
    .error (.badRequest ("Modulo " ++ req.module ++ " no valido"))
  else
    match get_item db req.module req.item_id with
    | none => .error (.notFound ("Item " ++ req.item_id ++ " no encontrado"))
    | some source_item =>
      let st := validModules.foldl (analyzeModule env req source_item.text)
        ⟨db, n, [], []⟩
      .ok ({ source_id := req.item_id, source_module := req.module
             connections := st.conns, total := st.conns.length },
           st.db, st.n, st.trace)

/-! ## SuggestionGenerator: `suggest` (src/app/modules/suggestions.py:22-290) -/

/-- `SuggestionRequest` (src/app/models/schemas.py:243-248). -/
structure SuggestReq where
  modules : Option (List String)
  max_suggestions : Nat
  suggestion_types : Option (List String)
  min_relevance : ℚ
deriving DecidableEq, Repr

/-- `SuggestionResult` without its display-only `analysis_summary`
string (pure text report, reshaped nowhere). -/
structure SuggestResult where
  suggestions : List Item
  total : Nat
  by_type : List (String × Nat)
deriving DecidableEq, Repr

/-- `request.modules if request.modules else valid_modules`: a Python
empty list is falsy and also selects the default. -/
def resolveList (o : Option (List String)) (dflt : List String) : List String :=
  match o with
  | some (x :: xs) => x :: xs
  | _ => dflt

/-- The placeholder clustering of suggestions.py:70-83: texts are
bucketed by `index mod 5` (bucket keys in first-occurrence order); each
bucket with more than one member contributes its first text, truncated
to 100 characters with an unconditional ellipsis, as a main theme. -/
def mainThemes (texts : List String) : List String :=
  let idxed := texts.enum
  let clusterIds := dedupFirst (idxed.map (fun p => p.1 % 5))
  clusterIds.foldl (fun acc cid =>
    let members := (idxed.filter (fun p => p.1 % 5 = cid)).map (fun p => p.2)
    if 1 < members.length then acc ++ [(members.headD "").take 100 ++ "..."]
    else acc) []

/-- Metadata of an `insight` suggestion (suggestions.py:97-107). -/
def insightMetadata (mods : List String) (now : String) : Metadata :=
  [("type", .s "insight"), ("context", .s "analisis de temas"),
   ("relevance_score", .q 0.8), ("source_modules", .strList mods),
   ("source_items", .strList []), ("is_implemented", .b false),
   ("implementation_date", .null), ("created_at", .s now), ("updated_at", .s now)]

/-- Metadata of an `action` suggestion (suggestions.py:157-167). -/
def actionMetadata (module itemId now : String) : Metadata :=
  [("type", .s "action"), ("context", .s "items inactivos"),
   ("relevance_score", .q 0.7), ("source_modules", .strList [module]),
   ("source_items", .strList [itemId]), ("is_implemented", .b false),
   ("implementation_date", .null), ("created_at", .s now), ("updated_at", .s now)]

/-- Metadata of a `connection` suggestion (suggestions.py:238-248). -/
def connSuggMetadata (m1 m2 id1 id2 : String) (sim : ℚ) (now : String) : Metadata :=
  [("type", .s "connection"), ("context", .s "conexiones entre modulos"),
   ("relevance_score", .q sim), ("source_modules", .strList [m1, m2]),
   ("source_items", .strList [id1, id2]), ("is_implemented", .b false),
   ("implementation_date", .null), ("created_at", .s now), ("updated_at", .s now)]

/-- `datetime.isoformat().split("T")[0]`: the calendar-date prefix. -/
def dateOf (s : String) : String := ((s.splitOn "T").headD "")

/-- The inactive items of suggestions.py:127-148: items whose
`PriorityRecord` (linear scan, first 100) carries a truthy
`last_accessed` whose date differs from today's. -/
def inactiveItems (db : DB) (env : Env) (allData : List (String × List Item)) :
    List (Item × String) :=
  allData.flatMap (fun md => md.2.filterMap (fun it =>
    let priority_records := list_items db "priorities"
    match priority_records.find? (prMatches it.id md.1) with
    | some p =>
      match p.metadata.get "last_accessed" with
      | some (.s la) =>
        if la ≠ "" ∧ dateOf la ≠ dateOf env.now then some (it, md.1) else none
      | _ => none
    | none => none))

/-- A potential cross-module connection (suggestions.py:215-227). -/
structure PotConn where
  item1 : DupSide
  item2 : DupSide
  similarity : ℚ
deriving DecidableEq, Repr

/-- The resolved target modules of `suggest`. -/
def suggestModules (req : SuggestReq) : List String :=
  resolveList req.modules validModules

/-- The fixed suggestion types. -/
def validTypes : List String := ["action", "insight", "connection"]

/-- The resolved suggestion types of `suggest`. -/
def suggestTypes (req : SuggestReq) : List String :=
  resolveList req.suggestion_types validTypes

/-- `f"Se ha identificado un tema recurrente: '{theme}'. ..."`. -/
def insightText (theme : String) : String :=
  "Se ha identificado un tema recurrente: \x27" ++ theme ++
    "\x27. Considera profundizar en este tema."

/-- `f"Revisa y actualiza el item: '{text[:100]}...'"`. -/
def actionText (text : String) : String :=
  "Revisa y actualiza el item: \x27" ++ text.take 100 ++ "...\x27"

/-- `f"Se ha detectado una posible conexión entre '{t1}' y '{t2}'"`
(both texts already conditionally truncated). -/
def connText (t1 t2 : String) : String :=
  "Se ha detectado una posible conexion entre \x27" ++ t1 ++ "\x27 y \x27" ++ t2 ++ "\x27"

/-- Creating and persisting one `insight` suggestion
(suggestions.py:92-123). -/
def insightStep (env : Env) (mods : List String)
    (st : List Item × DB × Nat) (theme : String) : List Item × DB × Nat :=
  let r := add_item st.2.1 "suggestions" (env.freshId st.2.2) (insightText theme)
    (insightMetadata mods env.now)
  (st.1 ++ [r.1], r.2, st.2.2 + 1)

/-- Creating and persisting one `action` suggestion
(suggestions.py:150-183). -/
def actionStep (env : Env) (st : List Item × DB × Nat) (pr : Item × String) :
    List Item × DB × Nat :=
  let r := add_item st.2.1 "suggestions" (env.freshId st.2.2) (actionText pr.1.text)
    (actionMetadata pr.2 pr.1.id env.now)
  (st.1 ++ [r.1], r.2, st.2.2 + 1)

/-- Creating and persisting one `connection` suggestion
(suggestions.py:229-264). -/
def connStep (env : Env) (st : List Item × DB × Nat) (c : PotConn) :
    List Item × DB × Nat :=
  let r := add_item st.2.1 "suggestions" (env.freshId st.2.2)
    (connText c.item1.text c.item2.text)
    (connSuggMetadata c.item1.module c.item2.module c.item1.id c.item2.id
      c.similarity env.now)
  (st.1 ++ [r.1], r.2, st.2.2 + 1)

/-- Insight generation (suggestions.py:92-123): up to
`min(2, max_suggestions)` themes. -/
def suggestInsights (req : SuggestReq) (env : Env) (themes : List String)
    (st0 : List Item × DB × Nat) : List Item × DB × Nat :=
  if "insight" ∈ suggestTypes req ∧ themes ≠ [] then
    (themes.take (min 2 req.max_suggestions)).foldl
      (insightStep env (suggestModules req)) st0
  else st0

/-- Action generation (suggestions.py:126-183): up to
`min(2, max_suggestions - generated)` inactive items, checked against
the current store. -/
def suggestActions (req : SuggestReq) (env : Env)
    (allData : List (String × List Item)) (st1 : List Item × DB × Nat) :
    List Item × DB × Nat :=
  if "action" ∈ suggestTypes req then
    let inact := inactiveItems st1.2.1 env allData
    if inact ≠ [] then
      (inact.take (min 2 (req.max_suggestions - st1.1.length))).foldl
        (actionStep env) st1
    else st1
  else st1

/-- The cross-module candidate pairs of suggestions.py:186-227: up to 5
representative items per non-empty module, module names compared by
Python string `<`, pairs kept at cosine similarity at least 0.7. -/
def potentialConnections (env : Env) (allData : List (String × List Item)) :
    List PotConn :=
  let representative_items := allData.filterMap (fun md =>
    if md.2 ≠ [] then some (md.1, md.2.take 5) else none)
  representative_items.flatMap (fun p1 =>
    representative_items.flatMap (fun p2 =>
      if strLt p1.1 p2.1 then
        p1.2.flatMap (fun i1 => p2.2.filterMap (fun i2 =>
          let similarity := env.sim i1.text i2.text
          if (0.7:ℚ) ≤ similarity then
            some (⟨⟨i1.id, trunc 100 i1.text, p1.1⟩,
              ⟨i2.id, trunc 100 i2.text, p2.1⟩, similarity⟩ : PotConn)
          else none))
      else []))

/-- Connection generation (suggestions.py:186-264): only with more than
one (possibly repeated) target module; candidates sorted by descending
similarity (stable), up to `min(2, max_suggestions - generated)`
persisted. -/
def suggestConns (req : SuggestReq) (env : Env)
    (allData : List (String × List Item)) (st2 : List Item × DB × Nat) :
    List Item × DB × Nat :=
  if "connection" ∈ suggestTypes req ∧ 1 < (suggestModules req).length then
    let potential_connections := potentialConnections env allData
    if potential_connections ≠ [] then
      ((potential_connections.mergeSort
          (fun a b => b.similarity ≤ a.similarity)).take
        (min 2 (req.max_suggestions - st2.1.length))).foldl (connStep env) st2
    else st2
  else st2

/-- The per-module data gathered once at the start of `suggest`
(suggestions.py:56-58): a dict keyed by module. -/
def suggestAllData (req : SuggestReq) (db : DB) : List (String × List Item) :=
  (dedupFirst (suggestModules req)).map (fun m => (m, list_items db m))

/-- The generation pipeline of `get_suggestions`
(suggestions.py:32-264): validation, data gathering, and the three
generation passes, each persisting its suggestions immediately.
Returns the generated suggestions in generation order together with
the updated store and id counter. -/
def suggestGen (req : SuggestReq) (db : DB) (env : Env) (n : Nat) :
    Except Err (List Item × DB × Nat) :=
  match (suggestModules req).find? (fun m => !(validModules.contains m)) with
  | some m => .error (.badRequest ("Modulo " ++ m ++ " no valido"))
  | none =>
    match (suggestTypes req).find? (fun t => !(validTypes.contains t)) with
    | some t => .error (.badRequest ("Tipo de sugerencia " ++ t ++ " no valido"))
    | none =>
      let allData := suggestAllData req db
      let themes := mainThemes (allData.flatMap (fun md => md.2.map (fun it => it.text)))
      .ok (suggestConns req env allData
        (suggestActions req env allData
          (suggestInsights req env themes ([], db, n))))

/-- `by_type` recomputed from the final list via `Counter`
(suggestions.py:274): types in first-occurrence order with their
multiplicities. -/
def byTypeCounts (final : List Item) : List (String × Nat) :=
  let typeOf := fun (s : Item) =>
    match s.metadata.get "type" with
    | some (.s t) => t
    | _ => "unknown"
  (dedupFirst (final.map typeOf)).map (fun t =>
    (t, (final.filter (fun s => typeOf s = t)).length))

/-- `get_suggestions` (POST /sugerencias/obtener,
suggestions.py:22-290): generation, then the `min_relevance` filter
(skipped when the threshold is 0), then the `max_suggestions`
truncation. -/
def get_suggestions (req : SuggestReq) (db : DB) (env : Env) (n : Nat) :
    Except Err (SuggestResult × DB × Nat) :=
  match suggestGen req db env n with
  | .error e => .error e
  | .ok st =>
    let filtered :=
      if 0 < req.min_relevance then
        st.1.filter (fun s => req.min_relevance ≤ mGetQ s.metadata "relevance_score" 0)
      else st.1
    let final := filtered.take req.max_suggestions
    .ok ({ suggestions := final, total := final.length
           by_type := byTypeCounts final }, st.2.1, st.2.2)

/-! ## Concrete instances used by witnesses and counterexamples -/

/-- Are the ids of a collection pairwise distinct?  ChromaDB rejects a
duplicate id on `add`, and the core only ever adds freshly generated
uuids, so every reachable store satisfies this on each collection. -/
def idsNodup (l : List Item) : Prop := (l.map (fun it => it.id)).Nodup

def emptyDB : DB := ⟨[], [], [], [], [], [], []⟩

/-- A deterministic oracle: similarity 1 for every pair, no query
results, counter-indexed ids, a fixed clock. -/
def tEnv : Env :=
  ⟨fun _ _ => 1, fun _ _ _ => [], fun k => "id" ++ toString k, "2026-01-01T00:00:00"⟩

def c2db : DB := { emptyDB with business := (List.range 101).map (fun i => ⟨toString i, "t", []⟩) }

def c2req : ReviewReq := ⟨some "business", 0.85, 100, false, false⟩

def c1db : DB := { emptyDB with business := [⟨"x", "hi", []⟩] }

def c1req : OptimizeReq := ⟨some "business", true, true⟩

/-- Witness store for the amended convergence claim: one business item
whose priority record (usage 1, relevance 0.25, level medium) is
eligible for reprioritization to low but not for archiving. -/
def c1wdb : DB := { emptyDB with
  business := [⟨"x", "hi", []⟩],
  priorities := [⟨"p0", "t",
    [("item_id", .s "x"), ("module", .s "business"),
     ("priority_level", .s "medium"), ("relevance_score", .q 0.25),
     ("usage_count", .i 1)]⟩] }

def c1wrr : ReviewResult :=
  ⟨1, [], [⟨"x", "hi", "business", 0.25, 1, "review"⟩], []⟩

def c7db : DB := { emptyDB with
  business := [⟨"x", "hello", []⟩],
  priorities := (List.range 100).map (fun i =>
    ⟨"p" ++ toString i, "t", [("item_id", .s "other"), ("module", .s "identity")]⟩) }

def c7req : AdjustReq := ⟨"x", "business", "high", none⟩

def c7wdb : DB := { emptyDB with business := [⟨"x", "hello", []⟩] }

def c6text : String := "aaaaaaaaaaaaaaaaaaaaaaaaaaaaaaaaaaaaaaaaaaaaaaaaaa"

def c6db : DB := { emptyDB with business := [⟨"x", c6text, []⟩] }

def c6req : ReviewReq := ⟨some "business", 0.85, 100, true, true⟩

/-- Oracle whose queries return one foreign item at distance 1/4. -/
def c5env : Env :=
  ⟨fun _ _ => 1, fun _ _ _ => [(⟨"y", "yt", []⟩, 1/4)],
   fun k => "id" ++ toString k, "2026-01-01T00:00:00"⟩

def c5db : DB := { emptyDB with business := [⟨"x", "xt", []⟩] }

def c5req : AnalyzeReq := ⟨"x", "business", 0.7, 5⟩

def c4db : DB := { emptyDB with
  business := (List.range 6).map (fun i => ⟨"b" ++ toString i, "t" ++ toString i, []⟩) }

def c4env : Env :=
  ⟨fun _ _ => 0, fun _ _ _ => [], fun k => "sid" ++ toString k, "2026-01-01T00:00:00"⟩

def c4req : SuggestReq := ⟨none, 5, none, 0.6⟩

/-- The store component of a successful `review` outcome. -/
def dbOfOk {α : Type} (x : Except Err (α × DB)) (d : DB) : DB :=
  match x with
  | .ok p => p.2
  | .error _ => d

/-- The facts `analyze` guarantees for each connection it returns: it
arises from one nearest-neighbour result `p` of one analyzable module
`m` queried with the source text and `max_connections`, it is not a
self-match, its similarity `1 - distance` reaches the threshold, and
its stored metadata is exactly the connection metadata built from
those values. -/
def ConnSpec (req : AnalyzeReq) (db : DB) (env : Env) (srcText : String)
    (c : Item) : Prop :=
  ∃ m p, m ∈ validModules ∧
    p ∈ env.query (db.coll m) srcText req.max_connections ∧
    ¬(m = req.module ∧ p.1.id = req.item_id) ∧
    req.min_similarity ≤ 1 - p.2 ∧
    c.metadata = connectionMetadata req p.1.id m (1 - p.2) env.now

/-- Invariant threaded through `analyze`'s loops: collections other
than `connections` are untouched, the `connections` collection is the
initial one plus the created connections in order, and every created
connection satisfies `ConnSpec`. -/
def AnInv (req : AnalyzeReq) (db : DB) (env : Env) (srcText : String)
    (st : AnState) : Prop :=
  (∀ k, k ≠ "connections" → st.db.coll k = db.coll k) ∧
    st.db.connections = db.connections ++ st.conns ∧
    ∀ c ∈ st.conns, ConnSpec req db env srcText c

/-- The ghost query trace of a successful `analyze` outcome. -/
def anTrace (x : Except Err (AnalysisResult × DB × Nat × List (String × Nat))) :
    List (String × Nat) :=
  match x with
  | .ok p => p.2.2.2
  | .error _ => []

/-- The connections created by the evaluated `analyze` witness run: one
per analyzable module, at similarity 1 - 1/4 = 3/4. -/
def c5conn (k : Nat) (m : String) : Item :=
  ⟨"id" ++ toString k, connectionText "xt" "yt",
   connectionMetadata c5req "y" m (3/4) "2026-01-01T00:00:00"⟩

def c5conns : List Item :=
  [c5conn 0 "identity", c5conn 1 "business", c5conn 2 "reminders", c5conn 3 "learnings"]

def c5dbOut : DB := { c5db with connections := c5conns }

/-- Invariant threaded through the three generation passes of
`suggest`: the store's `suggestions` collection is the initial one plus
the generated suggestions in order, and every generated suggestion
carries a `relevance_score` of at least 0.7. -/
def SuggInv (db : DB) (st : List Item × DB × Nat) : Prop :=
  st.2.1.suggestions = db.suggestions ++ st.1 ∧
    ∀ s ∈ st.1, (0.7:ℚ) ≤ mGetQ s.metadata "relevance_score" 0

/-- The single suggestion generated by the evaluated `suggest` witness
run: the first mod-5 bucket has two members, so its first text becomes
a theme and one insight suggestion is persisted. -/
def c4item : Item :=
  ⟨"sid0", insightText "t0...", insightMetadata validModules "2026-01-01T00:00:00"⟩

def c4db1 : DB := { c4db with suggestions := [c4item] }

/-- The metadata reads that `review` and the reprioritization lookup
depend on, preserved by the reprioritization pass's updates (which only
touch `priority_level` and `updated_at`). -/
def MdSame (md md' : Metadata) : Prop :=
  md'.get "item_id" = md.get "item_id" ∧
    md'.get "module" = md.get "module" ∧
    md'.get "relevance_score" = md.get "relevance_score" ∧
    md'.get "usage_count" = md.get "usage_count"

/-- Pointwise relation between a priority record and its reprioritized
version: same id, review-relevant metadata unchanged. -/
def PRel (p p' : Item) : Prop := p'.id = p.id ∧ MdSame p.metadata p'.metadata

/-- How the reprioritization pass may change the store: item
collections untouched, priority records updated in place (same length,
ids and review-relevant metadata). -/
def PPres (db db' : DB) : Prop :=
  db'.identity = db.identity ∧ db'.business = db.business ∧
    db'.reminders = db.reminders ∧ db'.learnings = db.learnings ∧
    db'.connections = db.connections ∧ db'.suggestions = db.suggestions ∧
    List.Forall₂ PRel db.priorities db'.priorities

/-- The reprioritization step for `(module, item)` does nothing on this
store: either no priority record is found, or the recomputed priority
does not trigger an update. -/
def RepriNoop (db : DB) (m : String) (it : Item) : Prop :=
  match (list_items db "priorities").find? (prMatches it.id m) with
  | none => True
  | some p =>
    ¬(((if 10 < mGetI p.metadata "usage_count" 0 ∧
          (0.7:ℚ) < mGetQ p.metadata "relevance_score" 0.5 then MVal.s "high"
        else if mGetI p.metadata "usage_count" 0 < 2 ∧
          mGetQ p.metadata "relevance_score" 0.5 < (0.3:ℚ) then MVal.s "low"
        else mGetMV p.metadata "priority_level" (.s "medium")) ≠
          mGetMV p.metadata "priority_level" (.s "medium")) ∧
      mGetMV p.metadata "priority_level" (.s "medium") ≠ MVal.s "archived")

/-! ## Helper lemmas -/

/-- `find?` commutes with a map that does not change the predicate's
verdict on any element of the list. -/
theorem find?_map_congr {α : Type} (l : List α) (g : α → α) (q : α → Bool)
    (h : ∀ x ∈ l, q (g x) = q x) :
    (l.map g).find? q = (l.find? q).map g := by
  induction l with
  | nil => rfl
  | cons x t ih =>
    simp only [List.map_cons, List.find?]
    rw [h x (List.mem_cons_self x t)]
    cases hq : q x
    · exact ih (fun y hy => h y (List.mem_cons_of_mem x hy))
    · rfl

theorem findSet_of_mem (t : List (String × MVal)) (k : String) (v : MVal)
    (h : ∃ x ∈ t, x.1 = k) :
    (t.map (fun p => if p.1 = k then (k, v) else p)).find?
      (fun p => decide (p.1 = k)) = some (k, v) := by
  induction t with
  | nil => simp at h
  | cons p t ih =>
    by_cases hp : p.1 = k
    · simp [List.find?, hp]
    · have h' : ∃ x ∈ t, x.1 = k := by
        rcases h with ⟨x, hx, hxk⟩
        rcases List.mem_cons.mp hx with rfl | hxt
        · exact absurd hxk hp
        · exact ⟨x, hxt, hxk⟩
      simpa [List.find?, hp] using ih h'

theorem findSet_of_not_mem (t : List (String × MVal)) (k : String) (v : MVal) :
    (t ++ [(k, v)]).find? (fun p => decide (p.1 = k)) =
      ((t.find? (fun p => decide (p.1 = k))).or (some (k, v))) := by
  rw [List.find?_append]
  simp [List.find?]

theorem mGet_set_self (m : Metadata) (k : String) (v : MVal) :
    (m.set k v).get k = some v := by
  unfold Metadata.set Metadata.get
  split
  next hany =>
    rw [findSet_of_mem m k v (by simpa using List.any_eq_true.mp hany)]
    rfl
  next hany =>
    have hnone : m.find? (fun p => decide (p.1 = k)) = none := by
      rw [List.find?_eq_none]
      intro x hx
      simp only [Bool.not_eq_true, decide_eq_false_iff_not]
      exact fun hxk => hany (List.any_eq_true.mpr ⟨x, hx, by simpa using hxk⟩)
    rw [findSet_of_not_mem, hnone]
    rfl

theorem mGet_set_ne (m : Metadata) (k k' : String) (v : MVal) (hk : k' ≠ k) :
    (m.set k v).get k' = m.get k' := by
  unfold Metadata.set Metadata.get
  split
  next =>
    rw [find?_map_congr m _ (fun p => decide (p.1 = k')) (by
      intro x hx
      by_cases hxk : x.1 = k
      · simp [hxk, Ne.symm hk]
      · simp [hxk])]
    cases hf : m.find? (fun p => decide (p.1 = k')) with
    | none => rfl
    | some y =>
      have hy : y.1 = k' := by simpa using List.find?_some hf
      have hgy : (if y.1 = k then (k, v) else y) = y := by
        rw [if_neg (hy ▸ hk)]
      simp [hgy]
  next =>
    rw [List.find?_append]
    have : ([(k, v)] : List (String × MVal)).find? (fun p => decide (p.1 = k')) = none := by
      simp [List.find?, Ne.symm hk]
    rw [this, Option.or_none]


theorem reviewModule_fetched (db : DB) (env : Env) (req : ReviewReq) (m : String) :
    (reviewModule db env req m).fetched = min 100 (db.coll m).length := by
  simp [reviewModule, list_items, list_items_paged]

/-- C8: `review` performs no writes: whenever `review_priorities`
returns successfully, the store it returns is exactly the store it was
given (and on an error outcome the caller's store is untouched by
construction); every collection therefore holds exactly the items it
held before the call. -/
theorem C8_review_is_read_only (req : ReviewReq) (db : DB) (env : Env)
    (r : ReviewResult) (db' : DB)
    (h : review_priorities req db env = .ok (r, db')) :
    db' = db ∧ ∀ k : String, db'.coll k = db.coll k := by
  unfold review_priorities at h
  split at h
  next => cases h
  next =>
    injection h with h'
    injection h' with h1 h2
    exact ⟨h2.symm, fun k => by rw [h2]⟩

theorem C8_witness :
    isOkE (review_priorities c6req c6db tEnv) = true ∧
      dbOfOk (review_priorities c6req c6db tEnv) emptyDB = c6db := by
  refine ⟨by with_unfolding_all decide, ?_⟩
  cases h : review_priorities c6req c6db tEnv with
  | error e =>
    have hok : isOkE (review_priorities c6req c6db tEnv) = true := by
      with_unfolding_all decide
    rw [h] at hok
    cases hok
  | ok p =>
    simp only [dbOfOk]
    exact (C8_review_is_read_only c6req c6db tEnv p.1 p.2 (by rw [h])).1

/-- C2 (amended): `list_items` returns at most its `limit` (default
100) items, so `review` fetches at most the first 100 items of each
module and `total_items_reviewed` sums `min 100 (collection size)`
over the reviewed modules, not the full collection sizes. -/
theorem C2_total_is_capped_at_100 (req : ReviewReq) (db : DB) (env : Env)
    (r : ReviewResult) (db' : DB)
    (h : review_priorities req db env = .ok (r, db')) :
    r.total_items_reviewed =
      ((reviewModules req).map (fun m => min 100 (db.coll m).length)).sum := by
  unfold review_priorities at h
  split at h
  next => cases h
  next =>
    injection h with h'
    injection h' with h1 h2
    rw [← h1]
    simp [List.map_map, Function.comp_def, reviewModule_fetched]

/-- C2 counterexample: with 101 items stored in `business`, `review`
reports `total_items_reviewed = 100`, not the 101 items actually
present — the full-scan `list()` of the claim in fact returns only the
first 100 items. -/
theorem C2_counterexample :
    (review_priorities c2req c2db tEnv).map (fun p => p.1.total_items_reviewed) =
        .ok 100 ∧
      c2db.business.length = 101 ∧ (100 : Nat) ≠ 101 := by
  refine ⟨by with_unfolding_all decide, by with_unfolding_all decide, by decide⟩

theorem C2_witness :
    (100 : Nat) = ((reviewModules c2req).map (fun m => min 100 (c2db.coll m).length)).sum := by
  have hok : review_priorities c2req c2db tEnv = .ok (⟨100, [], [], []⟩, c2db) := by
    with_unfolding_all decide
  simpa using (C2_total_is_capped_at_100 c2req c2db tEnv _ _ hok).symm

/-- Every entry that `lowScan` emits classifies itself by the archive
rule and carries one of the two actions. -/
theorem lowScan_action (db : DB) (m : String) (items : List Item) (e : LowRel)
    (he : e ∈ (lowScan db m items).1) :
    (e.suggested_action = "archive" ↔ (e.relevance_score < (0.2:ℚ) ∧ e.usage_count = 0)) ∧
      (e.suggested_action = "archive" ∨ e.suggested_action = "review") := by
  unfold lowScan at he
  simp only [List.mem_filterMap] at he
  obtain ⟨it, _, hmk⟩ := he
  split at hmk
  · injection hmk with hmk
    subst hmk
    constructor
    · constructor
      · intro ha
        by_contra hc
        simp only [if_neg hc] at ha
        exact absurd ha (by decide)
      · intro hc
        simp [if_pos hc]
    · by_cases hc : (lowCompute db m it).1 < (0.2:ℚ) ∧ (lowCompute db m it).2 = 0
      · exact Or.inl (by simp [if_pos hc])
      · exact Or.inr (by simp [if_neg hc])
  · cases hmk

/-- C6: in `review`, an entry of `low_relevance_items` is classified
`suggested_action = "archive"` exactly when its computed
`relevance_score` is below 0.2 and its `usage_count` is 0, and
otherwise `"review"`. -/
theorem C6_archive_iff_low_and_unused (req : ReviewReq) (db : DB) (env : Env)
    (r : ReviewResult) (db' : DB)
    (h : review_priorities req db env = .ok (r, db'))
    (e : LowRel) (he : e ∈ r.low_relevance_items) :
    (e.suggested_action = "archive" ↔ (e.relevance_score < (0.2:ℚ) ∧ e.usage_count = 0)) ∧
      (e.suggested_action = "archive" ∨ e.suggested_action = "review") := by
  unfold review_priorities at h
  split at h
  next => cases h
  next =>
    injection h with h'
    injection h' with h1 h2
    rw [← h1] at he
    simp only [List.mem_flatMap, List.mem_map] at he
    obtain ⟨mr, ⟨m, hm, hmr⟩, hemr⟩ := he
    rw [← hmr] at hemr
    unfold reviewModule at hemr
    dsimp only at hemr
    split at hemr
    · exact lowScan_action db m _ e hemr
    · cases hemr

/-- C6 witness, the claim's own scenario: a single business item whose
text has length 50 and no PriorityRecord is reported with baseline
relevance 0.05 = 1/20, usage count 0 and action `"archive"`, and the
archive rule of the theorem holds at that entry. -/
theorem C6_witness :
    c6text.length = 50 ∧
      (review_priorities c6req c6db tEnv).map (fun p => p.1.low_relevance_items) =
        .ok [⟨"x", c6text, "business", 1/20, 0, "archive"⟩] ∧
      (("archive" = "archive") ↔ ((1/20:ℚ) < (0.2:ℚ) ∧ (0:Int) = 0)) := by
  have hok : review_priorities c6req c6db tEnv =
      .ok (⟨1, [], [⟨"x", c6text, "business", 1/20, 0, "archive"⟩],
        [.archive "x" "business" (archiveReason (1/20))]⟩, c6db) := by
    with_unfolding_all decide
  refine ⟨by decide, by rw [hok]; rfl, ?_⟩
  have := (C6_archive_iff_low_and_unused c6req c6db tEnv _ _ hok
    ⟨"x", c6text, "business", 1/20, 0, "archive"⟩ (by simp)).1
  simpa using this

theorem coll_conn_update (db : DB) (l : List Item) (k : String)
    (hk : k ≠ "connections") :
    ({ db with connections := l } : DB).coll k = db.coll k := by
  unfold DB.coll
  split_ifs <;> simp_all

theorem analyzeHit_trace (env : Env) (req : AnalyzeReq) (t m : String)
    (st : AnState) (r : Item × ℚ) :
    (analyzeHit env req t m st r).trace = st.trace := by
  unfold analyzeHit
  split
  · rfl
  · dsimp only
    split <;> rfl

theorem foldl_hit_trace (env : Env) (req : AnalyzeReq) (t m : String)
    (results : List (Item × ℚ)) (st : AnState) :
    (results.foldl (analyzeHit env req t m) st).trace = st.trace := by
  induction results generalizing st with
  | nil => rfl
  | cons r rest ih => rw [List.foldl_cons, ih, analyzeHit_trace]

theorem foldl_mods_trace (env : Env) (req : AnalyzeReq) (t : String)
    (mods : List String) (hm : ∀ m ∈ mods, m ≠ "connections") (st : AnState) :
    (mods.foldl (analyzeModule env req t) st).trace =
      st.trace ++ mods.map (fun m => (m, req.max_connections)) := by
  induction mods generalizing st with
  | nil => simp
  | cons m rest ih =>
    rw [List.foldl_cons, ih (fun x hx => hm x (List.mem_cons_of_mem m hx))]
    unfold analyzeModule
    rw [if_neg (hm m (List.mem_cons_self m rest))]
    rw [foldl_hit_trace]
    simp

/-- The ghost trace of a successful `analyze` run: exactly one query
per analyzable module, in module order, each requesting
`max_connections` results. -/
theorem analyze_trace (req : AnalyzeReq) (db : DB) (env : Env) (n : Nat)
    (r : AnalysisResult) (db' : DB) (n' : Nat) (tr : List (String × Nat))
    (h : analyze_connections req db env n = .ok (r, db', n', tr)) :
    tr = validModules.map (fun m => (m, req.max_connections)) := by
  unfold analyze_connections at h
  split at h
  next => cases h
  next =>
    split at h
    next => cases h
    next src hsrc =>
      injection h with h'
      injection h' with h1 h2
      injection h2 with h3 h4
      injection h4 with h5 h6
      rw [← h6]
      rw [foldl_mods_trace env req src.text validModules (by decide) ⟨db, n, [], []⟩]
      rfl

theorem analyzeHit_inv (env : Env) (req : AnalyzeReq) (srcText m : String)
    (hm : m ∈ validModules) (db : DB) (st : AnState) (r : Item × ℚ)
    (hr : r ∈ env.query (db.coll m) srcText req.max_connections)
    (hinv : AnInv req db env srcText st) :
    AnInv req db env srcText (analyzeHit env req srcText m st r) := by
  obtain ⟨h1, h2, h3⟩ := hinv
  unfold analyzeHit
  split
  · exact ⟨h1, h2, h3⟩
  next hskip =>
    dsimp only
    split
    next hsim =>
      have hdb : add_item st.db "connections" (env.freshId st.n)
          (connectionText srcText r.1.text)
          (connectionMetadata req r.1.id m (1 - r.2) env.now) =
          (⟨env.freshId st.n, connectionText srcText r.1.text,
            connectionMetadata req r.1.id m (1 - r.2) env.now⟩,
           { st.db with connections := st.db.connections ++
             [⟨env.freshId st.n, connectionText srcText r.1.text,
               connectionMetadata req r.1.id m (1 - r.2) env.now⟩] }) := rfl
      rw [hdb]
      refine ⟨?_, ?_, ?_⟩
      · intro k hk
        dsimp only
        rw [coll_conn_update _ _ _ hk]
        exact h1 k hk
      · dsimp only
        rw [h2, List.append_assoc]
      · intro c hc
        rcases List.mem_append.mp hc with hc | hc
        · exact h3 c hc
        · have : c = ⟨env.freshId st.n, connectionText srcText r.1.text,
              connectionMetadata req r.1.id m (1 - r.2) env.now⟩ := by
            simpa using hc
          exact ⟨m, r, hm, hr, hskip, hsim, by rw [this]⟩
    · exact ⟨h1, h2, h3⟩

theorem foldl_hit_inv (env : Env) (req : AnalyzeReq) (srcText m : String)
    (hm : m ∈ validModules) (db : DB) (results : List (Item × ℚ))
    (hsub : ∀ r ∈ results, r ∈ env.query (db.coll m) srcText req.max_connections)
    (st : AnState) (hinv : AnInv req db env srcText st) :
    AnInv req db env srcText (results.foldl (analyzeHit env req srcText m) st) := by
  induction results generalizing st with
  | nil => exact hinv
  | cons r rest ih =>
    rw [List.foldl_cons]
    exact ih (fun x hx => hsub x (List.mem_cons_of_mem r hx))
      _ (analyzeHit_inv env req srcText m hm db st r
        (hsub r (List.mem_cons_self r rest)) hinv)

theorem analyzeModule_inv (env : Env) (req : AnalyzeReq) (srcText : String)
    (db : DB) (st : AnState) (m : String) (hm : m ∈ validModules)
    (hinv : AnInv req db env srcText st) :
    AnInv req db env srcText (analyzeModule env req srcText st m) := by
  unfold analyzeModule
  split
  · exact hinv
  next hne =>
    have hq : st.db.coll m = db.coll m := hinv.1 m hne
    rw [hq]
    refine foldl_hit_inv env req srcText m hm db _ (fun x hx => hx) _ ?_
    obtain ⟨h1, h2, h3⟩ := hinv
    exact ⟨h1, h2, h3⟩

theorem foldl_mods_inv (env : Env) (req : AnalyzeReq) (srcText : String)
    (db : DB) (mods : List String) (hm : ∀ m ∈ mods, m ∈ validModules)
    (st : AnState) (hinv : AnInv req db env srcText st) :
    AnInv req db env srcText (mods.foldl (analyzeModule env req srcText) st) := by
  induction mods generalizing st with
  | nil => exact hinv
  | cons m rest ih =>
    rw [List.foldl_cons]
    exact ih (fun x hx => hm x (List.mem_cons_of_mem m hx))
      _ (analyzeModule_inv env req srcText db st m (hm m (List.mem_cons_self m rest)) hinv)

/-- What a successful `analyze` run guarantees: the source item exists,
the store's `connections` collection grows by exactly the returned
connections, and every returned connection satisfies `ConnSpec`. -/
theorem analyze_spec (req : AnalyzeReq) (db : DB) (env : Env) (n : Nat)
    (r : AnalysisResult) (db' : DB) (n' : Nat) (tr : List (String × Nat))
    (h : analyze_connections req db env n = .ok (r, db', n', tr)) :
    ∃ src, get_item db req.module req.item_id = some src ∧
      db'.connections = db.connections ++ r.connections ∧
      ∀ c ∈ r.connections, ConnSpec req db env src.text c := by
  unfold analyze_connections at h
  split at h
  next => cases h
  next =>
    split at h
    next => cases h
    next src hsrc =>
      have hinv : AnInv req db env src.text
          (validModules.foldl (analyzeModule env req src.text) ⟨db, n, [], []⟩) :=
        foldl_mods_inv env req src.text db validModules (fun x hx => hx)
          ⟨db, n, [], []⟩ ⟨fun k _ => rfl, by simp, by simp⟩
      injection h with h'
      injection h' with h1 h2
      injection h2 with h3 h4
      refine ⟨src, hsrc, ?_, ?_⟩
      · rw [← h3, ← h1]
        exact hinv.2.1
      · rw [← h1]
        exact hinv.2.2

/-- C3: every valid `analyze` call issues exactly one nearest-neighbour
query (requesting up to `max_connections` results) to each analyzable
module other than the source module, and never queries the
`connections` collection. -/
theorem C3_one_query_per_module (req : AnalyzeReq) (db : DB) (env : Env) (n : Nat)
    (r : AnalysisResult) (db' : DB) (n' : Nat) (tr : List (String × Nat))
    (h : analyze_connections req db env n = .ok (r, db', n', tr)) :
    (∀ m ∈ validModules, m ≠ req.module →
        (tr.filter (fun e => e.1 = m)).length = 1 ∧
          ∀ e ∈ tr, e.1 = m → e.2 = req.max_connections) ∧
      tr.filter (fun e => e.1 = "connections") = [] := by
  have htr := analyze_trace req db env n r db' n' tr h
  subst htr
  refine ⟨?_, ?_⟩
  · intro m hm _
    refine ⟨?_, ?_⟩
    · rcases (show m = "identity" ∨ m = "business" ∨ m = "reminders" ∨
          m = "learnings" by simpa [validModules] using hm) with rfl | rfl | rfl | rfl <;>
        simp [validModules, List.filter]
    · intro e he _
      obtain ⟨m', _, rfl⟩ := List.mem_map.mp he
      rfl
  · simp [validModules, List.filter]

theorem C3_witness :
    isOkE (analyze_connections c5req c5db c5env 0) = true ∧
      ((anTrace (analyze_connections c5req c5db c5env 0)).filter
          (fun e => e.1 = "identity")).length = 1 ∧
      (anTrace (analyze_connections c5req c5db c5env 0)).filter
          (fun e => e.1 = "connections") = [] := by
  refine ⟨by with_unfolding_all decide, ?_⟩
  cases h : analyze_connections c5req c5db c5env 0 with
  | error e =>
    have hok : isOkE (analyze_connections c5req c5db c5env 0) = true := by
      with_unfolding_all decide
    rw [h] at hok
    cases hok
  | ok p =>
    obtain ⟨r, db', n', tr⟩ := p
    have hc3 := C3_one_query_per_module c5req c5db c5env 0 r db' n' tr (by rw [h])
    have h1 := (hc3.1 "identity" (by decide) (by decide)).1
    constructor
    · simpa [anTrace, h] using h1
    · simpa [anTrace, h] using hc3.2

/-- C5: assuming the nearest-neighbour oracle only reports non-negative
distances and `min_similarity ∈ [0,1]`, every connection a successful
`analyze` run returns (all of which it also persists, see the first
conjunct) has `strength = 1 - distance` at least `min_similarity` and
within `[0,1]`. -/
theorem C5_strength_bounds (req : AnalyzeReq) (db : DB) (env : Env) (n : Nat)
    (r : AnalysisResult) (db' : DB) (n' : Nat) (tr : List (String × Nat))
    (hms0 : 0 ≤ req.min_similarity) (hms1 : req.min_similarity ≤ 1)
    (hnn : ∀ items t k p, p ∈ env.query items t k → 0 ≤ p.2)
    (h : analyze_connections req db env n = .ok (r, db', n', tr)) :
    db'.connections = db.connections ++ r.connections ∧
      ∀ c ∈ r.connections,
        req.min_similarity ≤ mGetQ c.metadata "strength" 0 ∧
          0 ≤ mGetQ c.metadata "strength" 0 ∧ mGetQ c.metadata "strength" 0 ≤ 1 := by
  obtain ⟨src, hsrc, happ, hall⟩ := analyze_spec req db env n r db' n' tr h
  refine ⟨happ, ?_⟩
  intro c hc
  obtain ⟨m, p, hm, hp, hskip, hsim, hmd⟩ := hall c hc
  have hstr : mGetQ c.metadata "strength" 0 = 1 - p.2 := by
    rw [hmd]; rfl
  rw [hstr]
  refine ⟨hsim, le_trans hms0 hsim, ?_⟩
  have := hnn _ _ _ p hp
  linarith

theorem C5_witness :
    (0.7:ℚ) ≤ mGetQ (c5conn 0 "identity").metadata "strength" 0 ∧
      0 ≤ mGetQ (c5conn 0 "identity").metadata "strength" 0 ∧
      mGetQ (c5conn 0 "identity").metadata "strength" 0 ≤ 1 := by
  have hok : analyze_connections c5req c5db c5env 0 =
      .ok (⟨"x", "business", c5conns, 4⟩, c5dbOut, 4,
        [("identity", 5), ("business", 5), ("reminders", 5), ("learnings", 5)]) := by
    with_unfolding_all decide
  have hnn : ∀ items t k (p : Item × ℚ), p ∈ c5env.query items t k → 0 ≤ p.2 := by
    intro items t k p hp
    have : p = (⟨"y", "yt", []⟩, (1:ℚ)/4) := by simpa [c5env] using hp
    rw [this]
    norm_num
  have := (C5_strength_bounds c5req c5db c5env 0 _ _ _ _
    (by norm_num [c5req]) (by norm_num [c5req]) hnn hok).2
    (c5conn 0 "identity") (by simp [c5conns])
  simpa [c5req] using this

/-- C9: `analyze` never returns (nor, by the persistence conjunct,
stores) a connection whose `source_id` equals its `target_id` while
`source_module` equals `target_module`: the per-result self-match skip
makes such a record impossible. -/
theorem C9_no_self_connection (req : AnalyzeReq) (db : DB) (env : Env) (n : Nat)
    (r : AnalysisResult) (db' : DB) (n' : Nat) (tr : List (String × Nat))
    (h : analyze_connections req db env n = .ok (r, db', n', tr)) :
    db'.connections = db.connections ++ r.connections ∧
      ∀ c ∈ r.connections,
        ¬(c.metadata.get "source_id" = c.metadata.get "target_id" ∧
          c.metadata.get "source_module" = c.metadata.get "target_module") := by
  obtain ⟨src, hsrc, happ, hall⟩ := analyze_spec req db env n r db' n' tr h
  refine ⟨happ, ?_⟩
  intro c hc hcontra
  obtain ⟨hid, hmod⟩ := hcontra
  obtain ⟨m, p, hm, hp, hskip, hsim, hmd⟩ := hall c hc
  rw [hmd] at hid hmod
  have h1 : (connectionMetadata req p.1.id m (1 - p.2) env.now).get "source_id" =
      some (.s req.item_id) := rfl
  have h2 : (connectionMetadata req p.1.id m (1 - p.2) env.now).get "target_id" =
      some (.s p.1.id) := rfl
  have h3 : (connectionMetadata req p.1.id m (1 - p.2) env.now).get "source_module" =
      some (.s req.module) := rfl
  have h4 : (connectionMetadata req p.1.id m (1 - p.2) env.now).get "target_module" =
      some (.s m) := rfl
  rw [h1, h2] at hid
  rw [h3, h4] at hmod
  injection hid with hid
  injection hid with hid
  injection hmod with hmod
  injection hmod with hmod
  exact hskip ⟨hmod.symm, hid.symm⟩

theorem C9_witness :
    ¬((c5conn 1 "business").metadata.get "source_id" =
        (c5conn 1 "business").metadata.get "target_id" ∧
      (c5conn 1 "business").metadata.get "source_module" =
        (c5conn 1 "business").metadata.get "target_module") := by
  have hok : analyze_connections c5req c5db c5env 0 =
      .ok (⟨"x", "business", c5conns, 4⟩, c5dbOut, 4,
        [("identity", 5), ("business", 5), ("reminders", 5), ("learnings", 5)]) := by
    with_unfolding_all decide
  exact (C9_no_self_connection c5req c5db c5env 0 _ _ _ _ hok).2
    (c5conn 1 "business") (by simp [c5conns])

theorem suggestions_setColl (db : DB) (l : List Item) :
    (db.setColl "suggestions" l).suggestions = l := rfl

theorem insightStep_inv (env : Env) (mods : List String) (db : DB)
    (st : List Item × DB × Nat) (theme : String) (h : SuggInv db st) :
    SuggInv db (insightStep env mods st theme) := by
  obtain ⟨h1, h2⟩ := h
  unfold insightStep add_item
  refine ⟨?_, ?_⟩
  · dsimp only
    rw [suggestions_setColl]
    have : (st.2.1.coll "suggestions") = st.2.1.suggestions := rfl
    rw [this, h1, List.append_assoc]
  · intro s hs
    rcases List.mem_append.mp hs with hs | hs
    · exact h2 s hs
    · have : s = ⟨env.freshId st.2.2, insightText theme, insightMetadata mods env.now⟩ := by
        simpa using hs
      rw [this]
      show (0.7:ℚ) ≤ (0.8:ℚ)
      norm_num

theorem actionStep_inv (env : Env) (db : DB)
    (st : List Item × DB × Nat) (pr : Item × String) (h : SuggInv db st) :
    SuggInv db (actionStep env st pr) := by
  obtain ⟨h1, h2⟩ := h
  unfold actionStep add_item
  refine ⟨?_, ?_⟩
  · dsimp only
    rw [suggestions_setColl]
    have : (st.2.1.coll "suggestions") = st.2.1.suggestions := rfl
    rw [this, h1, List.append_assoc]
  · intro s hs
    rcases List.mem_append.mp hs with hs | hs
    · exact h2 s hs
    · have : s = ⟨env.freshId st.2.2, actionText pr.1.text,
          actionMetadata pr.2 pr.1.id env.now⟩ := by simpa using hs
      rw [this]
      show (0.7:ℚ) ≤ (0.7:ℚ)
      exact le_refl _

theorem connStep_inv (env : Env) (db : DB)
    (st : List Item × DB × Nat) (c : PotConn) (hc : (0.7:ℚ) ≤ c.similarity)
    (h : SuggInv db st) : SuggInv db (connStep env st c) := by
  obtain ⟨h1, h2⟩ := h
  unfold connStep add_item
  refine ⟨?_, ?_⟩
  · dsimp only
    rw [suggestions_setColl]
    have : (st.2.1.coll "suggestions") = st.2.1.suggestions := rfl
    rw [this, h1, List.append_assoc]
  · intro s hs
    rcases List.mem_append.mp hs with hs | hs
    · exact h2 s hs
    · have hse : s = ⟨env.freshId st.2.2, connText c.item1.text c.item2.text,
          connSuggMetadata c.item1.module c.item2.module c.item1.id c.item2.id
            c.similarity env.now⟩ := by simpa using hs
      rw [hse]
      have : mGetQ (connSuggMetadata c.item1.module c.item2.module c.item1.id
          c.item2.id c.similarity env.now) "relevance_score" 0 = c.similarity := rfl
      show (0.7:ℚ) ≤ mGetQ (connSuggMetadata c.item1.module c.item2.module
        c.item1.id c.item2.id c.similarity env.now) "relevance_score" 0
      rw [this]
      exact hc

theorem foldl_insightStep_inv (env : Env) (mods : List String) (db : DB)
    (l : List String) (st : List Item × DB × Nat) (h : SuggInv db st) :
    SuggInv db (l.foldl (insightStep env mods) st) := by
  induction l generalizing st with
  | nil => exact h
  | cons x t ih =>
    rw [List.foldl_cons]
    exact ih _ (insightStep_inv env mods db st x h)

theorem foldl_actionStep_inv (env : Env) (db : DB)
    (l : List (Item × String)) (st : List Item × DB × Nat) (h : SuggInv db st) :
    SuggInv db (l.foldl (actionStep env) st) := by
  induction l generalizing st with
  | nil => exact h
  | cons x t ih =>
    rw [List.foldl_cons]
    exact ih _ (actionStep_inv env db st x h)

theorem foldl_connStep_inv (env : Env) (db : DB) (l : List PotConn)
    (hsub : ∀ c ∈ l, (0.7:ℚ) ≤ c.similarity)
    (st : List Item × DB × Nat) (h : SuggInv db st) :
    SuggInv db (l.foldl (connStep env) st) := by
  induction l generalizing st with
  | nil => exact h
  | cons x t ih =>
    rw [List.foldl_cons]
    exact ih (fun y hy => hsub y (List.mem_cons_of_mem x hy))
      _ (connStep_inv env db st x (hsub x (List.mem_cons_self x t)) h)

theorem suggestInsights_inv (req : SuggestReq) (env : Env) (themes : List String)
    (db : DB) (st0 : List Item × DB × Nat) (h : SuggInv db st0) :
    SuggInv db (suggestInsights req env themes st0) := by
  unfold suggestInsights
  split
  · exact foldl_insightStep_inv env (suggestModules req) db _ st0 h
  · exact h

theorem suggestActions_inv (req : SuggestReq) (env : Env)
    (allData : List (String × List Item)) (db : DB)
    (st1 : List Item × DB × Nat) (h : SuggInv db st1) :
    SuggInv db (suggestActions req env allData st1) := by
  unfold suggestActions
  split
  · dsimp only
    split
    · exact foldl_actionStep_inv env db _ st1 h
    · exact h
  · exact h

/-- Every candidate pair that connection generation considers has
similarity at least 0.7, by the guard that admitted it. -/
theorem potentialConnections_sim (env : Env) (allData : List (String × List Item))
    (c : PotConn) (hc : c ∈ potentialConnections env allData) :
    (0.7:ℚ) ≤ c.similarity := by
  unfold potentialConnections at hc
  simp only [List.mem_flatMap] at hc
  obtain ⟨p1, _, p2, _, hc⟩ := hc
  split at hc
  · simp only [List.mem_flatMap, List.mem_filterMap] at hc
    obtain ⟨i1, _, i2, _, hmk⟩ := hc
    split at hmk
    next hge =>
      injection hmk with hmk
      rw [← hmk]
      exact hge
    next => cases hmk
  · cases hc

theorem suggestConns_inv (req : SuggestReq) (env : Env)
    (allData : List (String × List Item)) (db : DB)
    (st2 : List Item × DB × Nat) (h : SuggInv db st2) :
    SuggInv db (suggestConns req env allData st2) := by
  unfold suggestConns
  split
  · dsimp only
    split
    · refine foldl_connStep_inv env db _ ?_ st2 h
      intro c hc
      exact potentialConnections_sim env allData c
        (List.mem_mergeSort.mp (List.take_subset _ _ hc))
    · exact h
  · exact h

/-- What a successful generation run guarantees: the `suggestions`
collection grows by exactly the generated suggestions (each written at
generation time), and every generated suggestion has relevance at
least 0.7. -/
theorem suggestGen_spec (req : SuggestReq) (db : DB) (env : Env) (n : Nat)
    (gen : List Item) (db1 : DB) (n1 : Nat)
    (h : suggestGen req db env n = .ok (gen, db1, n1)) :
    db1.suggestions = db.suggestions ++ gen ∧
      ∀ s ∈ gen, (0.7:ℚ) ≤ mGetQ s.metadata "relevance_score" 0 := by
  unfold suggestGen at h
  split at h
  next => cases h
  next =>
    split at h
    next => cases h
    next =>
      injection h with h'
      have hinv : SuggInv db (suggestConns req env (suggestAllData req db)
          (suggestActions req env (suggestAllData req db)
            (suggestInsights req env
              (mainThemes ((suggestAllData req db).flatMap
                (fun md => md.2.map (fun it => it.text)))) ([], db, n)))) :=
        suggestConns_inv req env _ db _
          (suggestActions_inv req env _ db _
            (suggestInsights_inv req env _ db _ ⟨by simp, by simp⟩))
      rw [h'] at hinv
      exact ⟨hinv.1, hinv.2⟩

/-- C4: on every successful call, `suggest` returns at most
`max_suggestions` suggestions, all with `relevance_score` at least
`min_relevance` (assuming the schema's `min_relevance ≥ 0`); the
returned list is exactly the `min_relevance`-filtered generated list
truncated to `max_suggestions` — filter before truncation. -/
theorem C4_suggest_bounds (req : SuggestReq) (db : DB) (env : Env) (n : Nat)
    (gen : List Item) (db1 : DB) (n1 : Nat)
    (res : SuggestResult) (db2 : DB) (n2 : Nat)
    (hmr : 0 ≤ req.min_relevance)
    (hgen : suggestGen req db env n = .ok (gen, db1, n1))
    (hok : get_suggestions req db env n = .ok (res, db2, n2)) :
    res.suggestions.length ≤ req.max_suggestions ∧
      (∀ s ∈ res.suggestions,
        req.min_relevance ≤ mGetQ s.metadata "relevance_score" 0) ∧
      res.suggestions = (gen.filter (fun s =>
        req.min_relevance ≤ mGetQ s.metadata "relevance_score" 0)).take
          req.max_suggestions := by
  obtain ⟨hpersist, hrel⟩ := suggestGen_spec req db env n gen db1 n1 hgen
  unfold get_suggestions at hok
  rw [hgen] at hok
  injection hok with hok'
  injection hok' with hr hrest
  rw [← hr]
  dsimp only
  by_cases hpos : 0 < req.min_relevance
  · rw [if_pos hpos]
    refine ⟨?_, ?_, rfl⟩
    · rw [List.length_take]
      exact min_le_left _ _
    · intro s hs
      have hs' := List.take_subset _ _ hs
      exact of_decide_eq_true (List.mem_filter.mp hs').2
  · have h0 : req.min_relevance = 0 := le_antisymm (not_lt.mp hpos) hmr
    rw [if_neg hpos]
    have hfilter : gen.filter (fun s =>
        req.min_relevance ≤ mGetQ s.metadata "relevance_score" 0) = gen := by
      rw [List.filter_eq_self]
      intro s hs
      refine decide_eq_true ?_
      rw [h0]
      exact le_trans (by norm_num) (hrel s hs)
    refine ⟨?_, ?_, by rw [hfilter]⟩
    · rw [List.length_take]
      exact min_le_left _ _
    · intro s hs
      rw [h0]
      exact le_trans (by norm_num) (hrel s (List.take_subset _ _ hs))

theorem C4_witness :
    ((⟨[c4item], 1, [("insight", 1)]⟩ : SuggestResult).suggestions.length ≤
        c4req.max_suggestions) ∧
      (0.6:ℚ) ≤ mGetQ c4item.metadata "relevance_score" 0 := by
  have hgen : suggestGen c4req c4db c4env 0 = .ok ([c4item], c4db1, 1) := by
    with_unfolding_all decide
  have hok : get_suggestions c4req c4db c4env 0 =
      .ok (⟨[c4item], 1, [("insight", 1)]⟩, c4db1, 1) := by
    with_unfolding_all decide
  have h := C4_suggest_bounds c4req c4db c4env 0 _ _ _ _ _ _
    (by norm_num [c4req]) hgen hok
  refine ⟨h.1, ?_⟩
  have := h.2.1 c4item (by simp)
  have hc4 : c4req.min_relevance = (0.6:ℚ) := rfl
  rw [hc4] at this
  exact this

/-- C10: every suggestion that `suggest` generates is written to the
`suggestions` collection at generation time — the final store is the
initial one with exactly the generated suggestions appended — so
suggestions excluded from the response by the `min_relevance` filter or
the `max_suggestions` truncation remain persisted. -/
theorem C10_generated_suggestions_persisted (req : SuggestReq) (db : DB)
    (env : Env) (n : Nat) (gen : List Item) (db1 : DB) (n1 : Nat)
    (res : SuggestResult) (db2 : DB) (n2 : Nat)
    (hgen : suggestGen req db env n = .ok (gen, db1, n1))
    (hok : get_suggestions req db env n = .ok (res, db2, n2)) :
    db2 = db1 ∧ db1.suggestions = db.suggestions ++ gen ∧
      (∀ s ∈ gen, s ∈ db2.suggestions) ∧
      ∀ s ∈ gen, s ∉ res.suggestions → s ∈ db2.suggestions := by
  obtain ⟨hpersist, _⟩ := suggestGen_spec req db env n gen db1 n1 hgen
  unfold get_suggestions at hok
  rw [hgen] at hok
  injection hok with hok'
  injection hok' with hr hrest
  injection hrest with hdb hn
  refine ⟨hdb.symm, hpersist, ?_, ?_⟩
  · intro s hs
    rw [← hdb, hpersist]
    exact List.mem_append_right _ hs
  · intro s hs _
    rw [← hdb, hpersist]
    exact List.mem_append_right _ hs

theorem C10_witness :
    c4db1.suggestions = c4db.suggestions ++ [c4item] ∧
      c4item ∈ c4db1.suggestions := by
  have hgen : suggestGen c4req c4db c4env 0 = .ok ([c4item], c4db1, 1) := by
    with_unfolding_all decide
  have hok : get_suggestions c4req c4db c4env 0 =
      .ok (⟨[c4item], 1, [("insight", 1)]⟩, c4db1, 1) := by
    with_unfolding_all decide
  have h := C10_generated_suggestions_persisted c4req c4db c4env 0 _ _ _ _ _ _ hgen hok
  exact ⟨h.2.1, h.2.2.1 c4item (by simp)⟩

theorem coll_priorities_update (db : DB) (l : List Item) (k : String)
    (hk : k ≠ "priorities") :
    ({ db with priorities := l } : DB).coll k = db.coll k := by
  unfold DB.coll
  split_ifs <;> simp_all

theorem valid_ne_priorities : ∀ m ∈ validModules, m ≠ "priorities" := by decide

theorem list_items_priorities_of_lt (db : DB) (h : db.priorities.length < 100) :
    list_items db "priorities" = db.priorities := by
  unfold list_items list_items_paged
  show (db.priorities.drop 0).take 100 = db.priorities
  rw [List.drop_zero]
  exact List.take_of_length_le (le_of_lt h)

theorem find_by_id_of_nodup (l : List Item) (hnd : idsNodup l) (p : Item)
    (hp : p ∈ l) : l.find? (fun it => it.id = p.id) = some p := by
  induction l with
  | nil => cases hp
  | cons x t ih =>
    by_cases hx : x.id = p.id
    · have hxp : x = p := List.inj_on_of_nodup_map hnd (List.mem_cons_self x t) hp hx
      rw [List.find?_cons_of_pos _ (by simpa using hx), hxp]
    · have hpt : p ∈ t := by
        rcases List.mem_cons.mp hp with rfl | h
        · exact absurd rfl hx
        · exact h
      have hnd' : idsNodup t := by
        unfold idsNodup at hnd ⊢
        exact (List.nodup_cons.mp (by simpa using hnd)).2
      rw [List.find?_cons_of_neg _ (by simpa using hx)]
      exact ih hnd' hpt

theorem adjustUpdatedMetadata_get (md : Metadata) (req : AdjustReq) (now k : String)
    (h1 : k ≠ "priority_level") (h2 : k ≠ "relevance_score") (h3 : k ≠ "updated_at") :
    (adjustUpdatedMetadata md req now).get k = md.get k := by
  unfold adjustUpdatedMetadata
  cases req.relevance_score with
  | none =>
    rw [mGet_set_ne _ _ _ _ h3, mGet_set_ne _ _ _ _ h1]
  | some r =>
    rw [mGet_set_ne _ _ _ _ h3, mGet_set_ne _ _ _ _ h2, mGet_set_ne _ _ _ _ h1]

theorem prMatches_adjustUpdated (i m : String) (p : Item) (req : AdjustReq)
    (now anyId t : String) :
    prMatches i m ⟨anyId, t, adjustUpdatedMetadata p.metadata req now⟩ =
      prMatches i m p := by
  unfold prMatches
  rw [show (Item.mk anyId t (adjustUpdatedMetadata p.metadata req now)).metadata =
    adjustUpdatedMetadata p.metadata req now from rfl]
  rw [adjustUpdatedMetadata_get p.metadata req now "item_id" (by decide) (by decide) (by decide)]
  rw [adjustUpdatedMetadata_get p.metadata req now "module" (by decide) (by decide) (by decide)]

/-- C7 (amended): calling `adjust` twice sequentially with the same
`item_id` and `module` (the item existing and inputs valid) makes the
second call find and update the record created or updated by the first
call — same stored record id, no additional record — provided the
priorities collection holds fewer than 100 records before the first
call (so the `list_items` scan, capped at its default limit of 100, can
see the record the first call wrote) and the store's ids are unique. -/
theorem C7_adjust_twice_updates_same_record (req : AdjustReq) (db : DB)
    (env : Env) (n : Nat)
    (hnd : idsNodup db.priorities)
    (hlen : db.priorities.length < 100)
    (hmod : req.module ∈ validModules)
    (hlev : req.priority_level ∈ (["high", "medium", "low"] : List String))
    (hitem : (get_item db req.module req.item_id).isSome = true) :
    ∃ rec1 db1 n1, adjust_priority req db env n = .ok (rec1, db1, n1) ∧
      ∃ rec2 db2 n2, adjust_priority req db1 env n1 = .ok (rec2, db2, n2) ∧
        rec2.id = rec1.id ∧ db2.priorities.length = db1.priorities.length := by
  obtain ⟨item, hget⟩ := Option.isSome_iff_exists.mp hitem
  have hmodP : req.module ≠ "priorities" := valid_ne_priorities req.module hmod
  have hli : list_items db "priorities" = db.priorities :=
    list_items_priorities_of_lt db hlen
  cases hfind : db.priorities.find? (prMatches req.item_id req.module) with
  | some p =>
    have hpmem : p ∈ db.priorities := List.mem_of_find?_eq_some hfind
    have hgetp : get_item db "priorities" p.id = some p :=
      find_by_id_of_nodup db.priorities hnd p hpmem
    refine ⟨⟨p.id, priorityText item.text req.module,
        adjustUpdatedMetadata p.metadata req env.now⟩,
      { db with priorities := db.priorities.map (fun it =>
        if it.id = p.id then
          ⟨p.id, priorityText item.text req.module,
            adjustUpdatedMetadata p.metadata req env.now⟩
        else it) }, n, ?_, ?_⟩
    · have hupd : update_item db "priorities" p.id
          (some (priorityText item.text req.module))
          (some (adjustUpdatedMetadata p.metadata req env.now)) =
          some (⟨p.id, priorityText item.text req.module,
              adjustUpdatedMetadata p.metadata req env.now⟩,
            { db with priorities := db.priorities.map (fun it =>
              if it.id = p.id then
                ⟨p.id, priorityText item.text req.module,
                  adjustUpdatedMetadata p.metadata req env.now⟩
              else it) }) := by
        unfold update_item
        rw [hgetp]
        rfl
      unfold adjust_priority
      rw [if_neg (by simp [hmod]), if_neg (by simp [hlev])]
      simp only [hget, hli, hfind, hupd]
    · have hcong : ∀ x ∈ db.priorities,
          prMatches req.item_id req.module
            ((fun it => if it.id = p.id then
              (⟨p.id, priorityText item.text req.module,
                adjustUpdatedMetadata p.metadata req env.now⟩ : Item)
            else it) x) = prMatches req.item_id req.module x := by
        intro x hx
        by_cases hxid : x.id = p.id
        · have hxp : x = p := List.inj_on_of_nodup_map hnd hx hpmem hxid
          rw [hxp]
          simp only [if_pos rfl]
          exact prMatches_adjustUpdated req.item_id req.module p req env.now _ _
        · simp only [if_neg hxid]
      have hcongId : ∀ x ∈ db.priorities,
          (decide ((((fun it => if it.id = p.id then
              (⟨p.id, priorityText item.text req.module,
                adjustUpdatedMetadata p.metadata req env.now⟩ : Item)
            else it) x).id) = p.id) : Bool) = decide (x.id = p.id) := by
        intro x hx
        by_cases hxid : x.id = p.id
        · simp only [if_pos hxid]
          simp [hxid]
        · simp only [if_neg hxid]
      have hlen1 : (db.priorities.map (fun it =>
          if it.id = p.id then
            (⟨p.id, priorityText item.text req.module,
              adjustUpdatedMetadata p.metadata req env.now⟩ : Item)
          else it)).length < 100 := by
        rw [List.length_map]
        exact hlen
      have hget2 : get_item { db with priorities := db.priorities.map (fun it =>
          if it.id = p.id then
            (⟨p.id, priorityText item.text req.module,
              adjustUpdatedMetadata p.metadata req env.now⟩ : Item)
          else it) } req.module req.item_id = some item := by
        unfold get_item
        unfold get_item at hget
        rw [coll_priorities_update db _ req.module hmodP]
        exact hget
      have hli2 : list_items { db with priorities := db.priorities.map (fun it =>
          if it.id = p.id then
            (⟨p.id, priorityText item.text req.module,
              adjustUpdatedMetadata p.metadata req env.now⟩ : Item)
          else it) } "priorities" = db.priorities.map (fun it =>
            if it.id = p.id then
              (⟨p.id, priorityText item.text req.module,
                adjustUpdatedMetadata p.metadata req env.now⟩ : Item)
            else it) :=
        list_items_priorities_of_lt _ hlen1
      have hfind2 : (db.priorities.map (fun it =>
          if it.id = p.id then
            (⟨p.id, priorityText item.text req.module,
              adjustUpdatedMetadata p.metadata req env.now⟩ : Item)
          else it)).find? (prMatches req.item_id req.module) =
          some ⟨p.id, priorityText item.text req.module,
            adjustUpdatedMetadata p.metadata req env.now⟩ := by
        rw [find?_map_congr db.priorities _ _ hcong, hfind]
        simp
      have hgetp2 : get_item { db with priorities := db.priorities.map (fun it =>
          if it.id = p.id then
            (⟨p.id, priorityText item.text req.module,
              adjustUpdatedMetadata p.metadata req env.now⟩ : Item)
          else it) } "priorities" p.id =
          some ⟨p.id, priorityText item.text req.module,
            adjustUpdatedMetadata p.metadata req env.now⟩ := by
        show (db.priorities.map _).find? _ = _
        rw [find?_map_congr db.priorities _ _ hcongId]
        rw [show db.priorities.find? (fun it => decide (it.id = p.id)) = some p from
          find_by_id_of_nodup db.priorities hnd p hpmem]
        simp
      refine ⟨⟨p.id, priorityText item.text req.module,
          adjustUpdatedMetadata (adjustUpdatedMetadata p.metadata req env.now) req env.now⟩,
        { db with priorities := (db.priorities.map (fun it =>
            if it.id = p.id then
              (⟨p.id, priorityText item.text req.module,
                adjustUpdatedMetadata p.metadata req env.now⟩ : Item)
            else it)).map (fun it =>
          if it.id = p.id then
            ⟨p.id, priorityText item.text req.module,
              adjustUpdatedMetadata (adjustUpdatedMetadata p.metadata req env.now) req env.now⟩
          else it) }, n, ?_, rfl, ?_⟩
      · unfold adjust_priority
        rw [if_neg (by simp [hmod]), if_neg (by simp [hlev])]
        simp only [hget2, hli2, hfind2]
        unfold update_item
        rw [hgetp2]
        rfl
      · show (List.map _ _).length = (List.map _ _).length
        rw [List.length_map, List.length_map]
  | none =>
    set newRec : Item := ⟨env.freshId n, priorityText item.text req.module,
      newPriorityMetadata req.item_id req.module req.priority_level
        (req.relevance_score.getD 0.5) env.now⟩ with hnewRec
    refine ⟨newRec, { db with priorities := db.priorities ++ [newRec] }, n + 1, ?_, ?_⟩
    · unfold adjust_priority
      rw [if_neg (by simp [hmod]), if_neg (by simp [hlev])]
      simp only [hget, hli, hfind]
      rfl
    · have hget2 : get_item { db with priorities := db.priorities ++ [newRec] }
          req.module req.item_id = some item := by
        unfold get_item
        unfold get_item at hget
        rw [coll_priorities_update db _ req.module hmodP]
        exact hget
      have hli2 : list_items { db with priorities := db.priorities ++ [newRec] }
          "priorities" = db.priorities ++ [newRec] := by
        unfold list_items list_items_paged
        show ((db.priorities ++ [newRec]).drop 0).take 100 = _
        rw [List.drop_zero]
        refine List.take_of_length_le ?_
        rw [List.length_append]
        simp only [List.length_singleton]
        omega
      have hmatch : prMatches req.item_id req.module newRec = true := by
        unfold prMatches
        simp only [Bool.and_eq_true, decide_eq_true_eq]
        exact ⟨rfl, rfl⟩
      have hfind2 : (db.priorities ++ [newRec]).find?
          (prMatches req.item_id req.module) = some newRec := by
        rw [List.find?_append, hfind]
        rw [List.find?_cons_of_pos _ hmatch]
        rfl
      have hsome2 : (get_item { db with priorities := db.priorities ++ [newRec] }
          "priorities" (env.freshId n)).isSome = true := by
        show ((db.priorities ++ [newRec]).find? (fun it => it.id = env.freshId n)).isSome = true
        rw [List.find?_isSome]
        exact ⟨newRec, List.mem_append_right _ (by simp), by simp [hnewRec]⟩
      obtain ⟨cur, hcur⟩ := Option.isSome_iff_exists.mp hsome2
      refine ⟨⟨env.freshId n, priorityText item.text req.module,
          adjustUpdatedMetadata newRec.metadata req env.now⟩,
        { db with priorities := (db.priorities ++ [newRec]).map (fun it =>
          if it.id = env.freshId n then
            ⟨env.freshId n, priorityText item.text req.module,
              adjustUpdatedMetadata newRec.metadata req env.now⟩
          else it) }, n + 1, ?_, rfl, ?_⟩
      · unfold adjust_priority
        rw [if_neg (by simp [hmod]), if_neg (by simp [hlev])]
        simp only [hget2, hli2, hfind2]
        unfold update_item
        rw [hcur]
        rfl
      · show (List.map _ _).length = (db.priorities ++ [newRec]).length
        rw [List.length_map]

/-- C7 counterexample: with 100 pre-existing (non-matching) priority
records, the first `adjust` call appends its new record at index 100 —
beyond the default `list_items` window — so the second call does not
find it and creates a second record for the same `(item_id, module)`
pair: the returned ids differ and the collection grows again. -/
theorem C7_counterexample :
    ((adjust_priority c7req c7db tEnv 0).bind (fun p =>
      (adjust_priority c7req p.2.1 tEnv p.2.2).map (fun q =>
        (p.1.id, q.1.id, q.2.1.priorities.length)))) = .ok ("id0", "id1", 102) ∧
      ("id0" : String) ≠ "id1" := by
  exact ⟨by with_unfolding_all decide, by decide⟩

theorem C7_witness :
    ∃ rec1 db1 n1, adjust_priority c7req c7wdb tEnv 0 = .ok (rec1, db1, n1) ∧
      ∃ rec2 db2 n2, adjust_priority c7req db1 tEnv n1 = .ok (rec2, db2, n2) ∧
        rec2.id = rec1.id ∧ db2.priorities.length = db1.priorities.length :=
  C7_adjust_twice_updates_same_record c7req c7wdb tEnv 0
    (by unfold idsNodup; decide) (by decide)
    (by decide) (by decide) (by with_unfolding_all decide)

theorem prel_refl (p : Item) : PRel p p := ⟨rfl, rfl, rfl, rfl, rfl⟩

theorem PRel.comp {a b c : Item} (h1 : PRel a b) (h2 : PRel b c) : PRel a c :=
  ⟨h2.1.trans h1.1, h2.2.1.trans h1.2.1, h2.2.2.1.trans h1.2.2.1,
    h2.2.2.2.1.trans h1.2.2.2.1, h2.2.2.2.2.trans h1.2.2.2.2⟩

theorem ppres_refl (db : DB) : PPres db db :=
  ⟨rfl, rfl, rfl, rfl, rfl, rfl, List.forall₂_same.mpr (fun x _ => prel_refl x)⟩

theorem forall₂_comp {l₁ l₂ l₃ : List Item}
    (h1 : List.Forall₂ PRel l₁ l₂) (h2 : List.Forall₂ PRel l₂ l₃) :
    List.Forall₂ PRel l₁ l₃ := by
  induction h1 generalizing l₃ with
  | nil => cases h2; exact List.Forall₂.nil
  | cons hab h ih =>
    cases h2 with
    | cons hbc h' => exact List.Forall₂.cons (hab.comp hbc) (ih h')

theorem PPres.trans {db db' db'' : DB} (h1 : PPres db db') (h2 : PPres db' db'') :
    PPres db db'' :=
  ⟨h2.1.trans h1.1, h2.2.1.trans h1.2.1, h2.2.2.1.trans h1.2.2.1,
    h2.2.2.2.1.trans h1.2.2.2.1, h2.2.2.2.2.1.trans h1.2.2.2.2.1,
    h2.2.2.2.2.2.1.trans h1.2.2.2.2.2.1,
    forall₂_comp h1.2.2.2.2.2.2 h2.2.2.2.2.2.2⟩

theorem coll_eq_of_ppres {db db' : DB} (h : PPres db db') (k : String)
    (hk : k ≠ "priorities") : db'.coll k = db.coll k := by
  obtain ⟨h1, h2, h3, h4, h5, h6, _⟩ := h
  unfold DB.coll
  split_ifs <;> simp_all

theorem forall₂_map_self {l : List Item} (g : Item → Item)
    (h : ∀ x ∈ l, PRel x (g x)) : List.Forall₂ PRel l (l.map g) := by
  induction l with
  | nil => exact List.Forall₂.nil
  | cons x t ih =>
    exact List.Forall₂.cons (h x (List.mem_cons_self x t))
      (ih (fun y hy => h y (List.mem_cons_of_mem x hy)))

theorem map_id_eq_of_forall₂ {l l' : List Item}
    (h : List.Forall₂ PRel l l') :
    l'.map (fun it => it.id) = l.map (fun it => it.id) := by
  induction h with
  | nil => rfl
  | cons hab h ih => simp [hab.1, ih]

theorem idsNodup_of_ppres {db db' : DB} (h : PPres db db')
    (hnd : idsNodup db.priorities) : idsNodup db'.priorities := by
  unfold idsNodup at hnd ⊢
  rw [map_id_eq_of_forall₂ h.2.2.2.2.2.2]
  exact hnd

theorem forall₂_take {l l' : List Item} (n : Nat)
    (h : List.Forall₂ PRel l l') :
    List.Forall₂ PRel (l.take n) (l'.take n) := by
  induction h generalizing n with
  | nil => simp [List.Forall₂.nil]
  | cons hab h ih =>
    cases n with
    | zero => exact List.Forall₂.nil
    | succ k => exact List.Forall₂.cons hab (ih k)

theorem prMatches_eq_of_prel {a b : Item} (h : PRel a b) (i m : String) :
    prMatches i m b = prMatches i m a := by
  unfold prMatches
  rw [h.2.1, h.2.2.1]

theorem find?_rel_of_forall₂ {l l' : List Item}
    (h : List.Forall₂ PRel l l') (i m : String) :
    Option.Rel PRel (l.find? (prMatches i m)) (l'.find? (prMatches i m)) := by
  induction h with
  | nil => exact Option.Rel.none
  | cons hab h ih =>
    rename_i a b t t'
    cases hq : prMatches i m a with
    | true =>
      rw [List.find?_cons_of_pos _ hq,
        List.find?_cons_of_pos _ ((prMatches_eq_of_prel hab i m).trans hq)]
      exact Option.Rel.some hab
    | false =>
      rw [List.find?_cons_of_neg _ (by simp [hq]),
        List.find?_cons_of_neg _ (by simp [(prMatches_eq_of_prel hab i m).trans hq])]
      exact ih

theorem mGetQ_eq_of_get_eq {md md' : Metadata} (k : String) (d : ℚ)
    (h : md'.get k = md.get k) : mGetQ md' k d = mGetQ md k d := by
  unfold mGetQ
  rw [h]

theorem mGetI_eq_of_get_eq {md md' : Metadata} (k : String) (d : Int)
    (h : md'.get k = md.get k) : mGetI md' k d = mGetI md k d := by
  unfold mGetI
  rw [h]

theorem lowCompute_eq_of_ppres {db db' : DB} (h : PPres db db')
    (m : String) (it : Item) : lowCompute db' m it = lowCompute db m it := by
  have hf := find?_rel_of_forall₂ (forall₂_take 100 h.2.2.2.2.2.2) it.id m
  unfold lowCompute
  have hl : list_items db "priorities" = db.priorities.take 100 := rfl
  have hl' : list_items db' "priorities" = db'.priorities.take 100 := rfl
  rw [hl, hl']
  dsimp only
  cases hfa : (db.priorities.take 100).find? (prMatches it.id m) with
  | none =>
    cases hfb : (db'.priorities.take 100).find? (prMatches it.id m) with
    | none => rfl
    | some b =>
      rw [hfa, hfb] at hf
      cases hf
  | some a =>
    cases hfb : (db'.priorities.take 100).find? (prMatches it.id m) with
    | none =>
      rw [hfa, hfb] at hf
      cases hf
    | some b =>
      rw [hfa, hfb] at hf
      cases hf with
      | some hab =>
        dsimp only
        rw [mGetQ_eq_of_get_eq _ _ hab.2.2.2.1, mGetI_eq_of_get_eq _ _ hab.2.2.2.2]

theorem lowEntries_congr (db₁ db₂ : DB) (m : String) (items : List Item)
    (h : ∀ it ∈ items, lowCompute db₁ m it = lowCompute db₂ m it) :
    items.filterMap (fun it =>
      let rl := lowCompute db₁ m it
      if rl.1 < (0.3:ℚ) then
        some (⟨it.id, trunc 100 it.text, m, rl.1, rl.2,
          if rl.1 < (0.2:ℚ) ∧ rl.2 = 0 then "archive" else "review"⟩ : LowRel)
      else none) = items.filterMap (fun it =>
      let rl := lowCompute db₂ m it
      if rl.1 < (0.3:ℚ) then
        some (⟨it.id, trunc 100 it.text, m, rl.1, rl.2,
          if rl.1 < (0.2:ℚ) ∧ rl.2 = 0 then "archive" else "review"⟩ : LowRel)
      else none) :=
  List.filterMap_congr (fun it hit => by dsimp only; rw [h it hit])

theorem lowScan_eq_of_ppres {db db' : DB} (h : PPres db db')
    (m : String) (items : List Item) : lowScan db' m items = lowScan db m items := by
  unfold lowScan
  rw [lowEntries_congr db' db m items (fun it _ => lowCompute_eq_of_ppres h m it)]

theorem reviewModule_eq_of_ppres {db db' : DB} (h : PPres db db')
    (env : Env) (req : ReviewReq) (m : String) (hm : m ∈ validModules) :
    reviewModule db' env req m = reviewModule db env req m := by
  unfold reviewModule
  have hcoll : db'.coll m = db.coll m :=
    coll_eq_of_ppres h m (valid_ne_priorities m hm)
  have hitems : list_items db' m = list_items db m := by
    unfold list_items list_items_paged
    rw [hcoll]
  rw [hitems]
  dsimp only
  rw [lowScan_eq_of_ppres h]

theorem review_eq_of_ppres {db db' : DB} (h : PPres db db')
    (req : ReviewReq) (env : Env) (rr : ReviewResult)
    (hrev : review_priorities req db env = .ok (rr, db)) :
    review_priorities req db' env = .ok (rr, db') := by
  unfold review_priorities at hrev ⊢
  split at hrev
  next => cases hrev
  next hnone =>
    injection hrev with hrev'
    injection hrev' with h1 h2
    have hvalid : ∀ m ∈ reviewModules req, m ∈ validModules := by
      intro m hm
      have := List.find?_eq_none.mp hnone m hm
      simpa using this
    have hmap : (reviewModules req).map (reviewModule db' env req) =
        (reviewModules req).map (reviewModule db env req) := by
      apply List.map_congr_left
      intro m hm
      exact reviewModule_eq_of_ppres h env req m (hvalid m hm)
    dsimp only
    rw [hmap, h1]

theorem repri_md_get (pm : Metadata) (v : MVal) (now k : String)
    (h1 : k ≠ "priority_level") (h2 : k ≠ "updated_at") :
    ((pm.set "priority_level" v).set "updated_at" (.s now)).get k = pm.get k := by
  rw [mGet_set_ne _ _ _ _ h2, mGet_set_ne _ _ _ _ h1]

theorem repri_md_get_pl (pm : Metadata) (v : MVal) (now : String) :
    ((pm.set "priority_level" v).set "updated_at" (.s now)).get "priority_level" =
      some v := by
  rw [mGet_set_ne _ _ _ _ (by decide), mGet_set_self]

theorem ids_map_eq {l : List Item} (g : Item → Item)
    (h : ∀ x ∈ l, (g x).id = x.id) :
    (l.map g).map (fun it => it.id) = l.map (fun it => it.id) := by
  rw [List.map_map]
  exact List.map_congr_left (fun x hx => h x hx)

theorem repriStep_noop (env : Env) (m : String) (db : DB) (acc : List RepriEntry)
    (total : Nat) (it : Item) (h : RepriNoop db m it) :
    repriStep env m (db, acc, total) it = .ok (db, acc, total) := by
  unfold repriStep
  unfold RepriNoop at h
  dsimp only
  cases hf : (list_items db "priorities").find? (prMatches it.id m) with
  | none => rfl
  | some p =>
    rw [hf] at h
    dsimp only at h ⊢
    rw [if_neg h]

theorem repriStep_spec (env : Env) (m : String) (db : DB) (acc : List RepriEntry)
    (total : Nat) (it : Item) (hnd : idsNodup db.priorities) :
    ∃ db' acc' total',
      repriStep env m (db, acc, total) it = .ok (db', acc', total') ∧
        PPres db db' ∧ idsNodup db'.priorities ∧ RepriNoop db' m it ∧
        ∀ m' it', RepriNoop db m' it' → RepriNoop db' m' it' := by
  unfold repriStep
  dsimp only
  cases hf : (list_items db "priorities").find? (prMatches it.id m) with
  | none =>
    refine ⟨db, acc, total, rfl, ppres_refl db, hnd, ?_, fun _ _ h => h⟩
    unfold RepriNoop
    rw [hf]
    trivial
  | some p =>
    dsimp only
    by_cases hguard :
        ((if 10 < mGetI p.metadata "usage_count" 0 ∧
            (0.7:ℚ) < mGetQ p.metadata "relevance_score" 0.5 then MVal.s "high"
          else if mGetI p.metadata "usage_count" 0 < 2 ∧
            mGetQ p.metadata "relevance_score" 0.5 < (0.3:ℚ) then MVal.s "low"
          else mGetMV p.metadata "priority_level" (.s "medium")) ≠
            mGetMV p.metadata "priority_level" (.s "medium")) ∧
          mGetMV p.metadata "priority_level" (.s "medium") ≠ MVal.s "archived"
    case neg =>
      rw [if_neg hguard]
      refine ⟨db, acc, total, rfl, ppres_refl db, hnd, ?_, fun _ _ h => h⟩
      unfold RepriNoop
      rw [hf]
      exact hguard
    case pos =>
      rw [if_pos hguard]
      have hmem : p ∈ db.priorities := by
        have := List.mem_of_find?_eq_some hf
        exact List.take_subset 100 db.priorities (by exact this)
      have hgetp : get_item db "priorities" p.id = some p :=
        find_by_id_of_nodup db.priorities hnd p hmem
      have hupd : update_item db "priorities" p.id none
          (some ((p.metadata.set "priority_level"
            (if 10 < mGetI p.metadata "usage_count" 0 ∧
                (0.7:ℚ) < mGetQ p.metadata "relevance_score" 0.5 then MVal.s "high"
              else if mGetI p.metadata "usage_count" 0 < 2 ∧
                mGetQ p.metadata "relevance_score" 0.5 < (0.3:ℚ) then MVal.s "low"
              else mGetMV p.metadata "priority_level" (.s "medium"))).set
            "updated_at" (.s env.now))) =
          some (⟨p.id, p.text, (p.metadata.set "priority_level"
            (if 10 < mGetI p.metadata "usage_count" 0 ∧
                (0.7:ℚ) < mGetQ p.metadata "relevance_score" 0.5 then MVal.s "high"
              else if mGetI p.metadata "usage_count" 0 < 2 ∧
                mGetQ p.metadata "relevance_score" 0.5 < (0.3:ℚ) then MVal.s "low"
              else mGetMV p.metadata "priority_level" (.s "medium"))).set
            "updated_at" (.s env.now)⟩,
          { db with priorities := db.priorities.map (fun x =>
            if x.id = p.id then
              ⟨p.id, p.text, (p.metadata.set "priority_level"
                (if 10 < mGetI p.metadata "usage_count" 0 ∧
                    (0.7:ℚ) < mGetQ p.metadata "relevance_score" 0.5 then MVal.s "high"
                  else if mGetI p.metadata "usage_count" 0 < 2 ∧
                    mGetQ p.metadata "relevance_score" 0.5 < (0.3:ℚ) then MVal.s "low"
                  else mGetMV p.metadata "priority_level" (.s "medium"))).set
                "updated_at" (.s env.now)⟩
            else x) }) := by
        unfold update_item
        rw [hgetp]
        rfl
      rw [hupd]
      generalize hv : (if 10 < mGetI p.metadata "usage_count" 0 ∧
          (0.7:ℚ) < mGetQ p.metadata "relevance_score" 0.5 then MVal.s "high"
        else if mGetI p.metadata "usage_count" 0 < 2 ∧
          mGetQ p.metadata "relevance_score" 0.5 < (0.3:ℚ) then MVal.s "low"
        else mGetMV p.metadata "priority_level" (.s "medium")) = newp at hguard ⊢
      set md : Metadata :=
        (p.metadata.set "priority_level" newp).set "updated_at" (.s env.now) with hmd
      set newIt : Item := ⟨p.id, p.text, md⟩ with hnI
      set g : Item → Item := fun x => if x.id = p.id then newIt else x with hg
      have hfp : (db.priorities.take 100).find? (prMatches it.id m) = some p := hf
      have hgid : ∀ x ∈ db.priorities, (g x).id = x.id := by
        intro x hx
        rw [hg]
        by_cases hxid : x.id = p.id
        · simp only [if_pos hxid, hnI]
          exact hxid.symm
        · simp only [if_neg hxid]
      have hcongrAll : ∀ (i mm : String), ∀ x ∈ db.priorities.take 100,
          prMatches i mm (g x) = prMatches i mm x := by
        intro i mm x hx
        rw [hg]
        by_cases hxid : x.id = p.id
        · have hxp : x = p :=
            List.inj_on_of_nodup_map hnd (List.take_subset 100 db.priorities hx) hmem hxid
          subst hxp
          simp only [if_pos rfl]
          rw [hnI]
          unfold prMatches
          rw [hmd]
          simp only [if_true]
          rw [repri_md_get x.metadata newp env.now "item_id" (by decide) (by decide)]
          rw [repri_md_get x.metadata newp env.now "module" (by decide) (by decide)]
        · simp only [if_neg hxid]
      have hli' : list_items { db with priorities := db.priorities.map g }
          "priorities" = (db.priorities.take 100).map g := by
        show (db.priorities.map g).take 100 = _
        rw [List.map_take]
      have husage : mGetI md "usage_count" 0 = mGetI p.metadata "usage_count" 0 :=
        mGetI_eq_of_get_eq _ _
          (hmd ▸ repri_md_get p.metadata newp env.now "usage_count" (by decide) (by decide))
      have hrel : mGetQ md "relevance_score" 0.5 =
          mGetQ p.metadata "relevance_score" 0.5 :=
        mGetQ_eq_of_get_eq _ _
          (hmd ▸ repri_md_get p.metadata newp env.now "relevance_score" (by decide) (by decide))
      have hcur : mGetMV md "priority_level" (.s "medium") = newp := by
        unfold mGetMV
        rw [hmd, repri_md_get_pl]
        rfl
      have hkey : (if 10 < mGetI p.metadata "usage_count" 0 ∧
          (0.7:ℚ) < mGetQ p.metadata "relevance_score" 0.5 then MVal.s "high"
        else if mGetI p.metadata "usage_count" 0 < 2 ∧
          mGetQ p.metadata "relevance_score" 0.5 < (0.3:ℚ) then MVal.s "low"
        else newp) = newp := by
        by_cases h1 : 10 < mGetI p.metadata "usage_count" 0 ∧
            (0.7:ℚ) < mGetQ p.metadata "relevance_score" 0.5
        · rw [if_pos h1, ← hv, if_pos h1]
        · by_cases h2 : mGetI p.metadata "usage_count" 0 < 2 ∧
              mGetQ p.metadata "relevance_score" 0.5 < (0.3:ℚ)
          · rw [if_neg h1, if_pos h2, ← hv, if_neg h1, if_pos h2]
          · rw [if_neg h1, if_neg h2]
      have hbodyNew : ¬(((if 10 < mGetI newIt.metadata "usage_count" 0 ∧
          (0.7:ℚ) < mGetQ newIt.metadata "relevance_score" 0.5 then MVal.s "high"
        else if mGetI newIt.metadata "usage_count" 0 < 2 ∧
          mGetQ newIt.metadata "relevance_score" 0.5 < (0.3:ℚ) then MVal.s "low"
        else mGetMV newIt.metadata "priority_level" (.s "medium")) ≠
          mGetMV newIt.metadata "priority_level" (.s "medium")) ∧
        mGetMV newIt.metadata "priority_level" (.s "medium") ≠ MVal.s "archived") := by
        rw [hnI]
        dsimp only
        rw [husage, hrel, hcur]
        intro hc
        exact hc.1 hkey
      refine ⟨_, _, _, rfl, ?_, ?_, ?_, ?_⟩
      · -- PPres
        refine ⟨rfl, rfl, rfl, rfl, rfl, rfl, ?_⟩
        refine forall₂_map_self _ ?_
        intro x hx
        rw [hg]
        by_cases hxid : x.id = p.id
        · have hxp : x = p := List.inj_on_of_nodup_map hnd hx hmem hxid
          subst hxp
          simp only [if_pos rfl]
          rw [hnI]
          refine ⟨rfl, ?_, ?_, ?_, ?_⟩ <;>
            (show md.get _ = _; rw [hmd];
             exact repri_md_get x.metadata newp env.now _ (by decide) (by decide))
        · simp only [if_neg hxid]
          exact prel_refl x
      · -- ids Nodup preserved
        unfold idsNodup at hnd ⊢
        rw [show ({ db with priorities := db.priorities.map g } : DB).priorities =
          db.priorities.map g from rfl]
        rw [ids_map_eq g hgid]
        exact hnd
      · -- the processed pair is now at a fixed point
        unfold RepriNoop
        rw [hli', find?_map_congr _ _ _ (hcongrAll it.id m), hfp]
        simp only [Option.map_some']
        rw [hg]
        simp only [if_pos rfl]
        exact hbodyNew
      · -- previously fixed pairs stay fixed
        intro m' it' hno
        unfold RepriNoop at hno ⊢
        rw [hli', find?_map_congr _ _ _ (hcongrAll it'.id m')]
        have hno' : (match (db.priorities.take 100).find? (prMatches it'.id m') with
          | none => True
          | some q =>
            ¬(((if 10 < mGetI q.metadata "usage_count" 0 ∧
                (0.7:ℚ) < mGetQ q.metadata "relevance_score" 0.5 then MVal.s "high"
              else if mGetI q.metadata "usage_count" 0 < 2 ∧
                mGetQ q.metadata "relevance_score" 0.5 < (0.3:ℚ) then MVal.s "low"
              else mGetMV q.metadata "priority_level" (.s "medium")) ≠
                mGetMV q.metadata "priority_level" (.s "medium")) ∧
              mGetMV q.metadata "priority_level" (.s "medium") ≠ MVal.s "archived")) := hno
        cases hfr : (db.priorities.take 100).find? (prMatches it'.id m') with
        | none => trivial
        | some r =>
          rw [hfr] at hno'
          simp only [Option.map_some']
          rw [hg]
          by_cases hrid : r.id = p.id
          · have hrp : r = p := List.inj_on_of_nodup_map hnd
              (List.take_subset 100 db.priorities (List.mem_of_find?_eq_some hfr))
              hmem hrid
            subst hrp
            simp only [if_pos rfl]
            exact hbodyNew
          · simp only [if_neg hrid]
            exact hno'

theorem exBind_ok {ε α β : Type} (a : α) (f : α → Except ε β) :
    (Except.ok a : Except ε α) >>= f = f a := rfl

/-- `list_items` on a non-priorities module is unchanged by a
priorities-preserving store transformation. -/
theorem list_items_eq_of_ppres {db db' : DB} (h : PPres db db') (m : String)
    (hm : m ∈ validModules) : list_items db' m = list_items db m := by
  unfold list_items list_items_paged
  rw [coll_eq_of_ppres h m (valid_ne_priorities m hm)]

/-- Folding `repriStep` over any item list succeeds, preserves all
non-priorities collections and the identifying fields of every priority
record, and leaves every processed pair at a fixed point. -/
theorem repriItems_spec (env : Env) (m : String) (items : List Item) :
    ∀ (db : DB) (acc : List RepriEntry) (total : Nat), idsNodup db.priorities →
    ∃ db' acc' total',
      items.foldlM (repriStep env m) (db, acc, total) = .ok (db', acc', total') ∧
        PPres db db' ∧ idsNodup db'.priorities ∧
        (∀ it ∈ items, RepriNoop db' m it) ∧
        (∀ m' it', RepriNoop db m' it' → RepriNoop db' m' it') := by
  induction items with
  | nil =>
    intro db acc total hnd
    exact ⟨db, acc, total, rfl, ppres_refl db, hnd,
      fun it hit => absurd hit (List.not_mem_nil it), fun _ _ h => h⟩
  | cons it t ih =>
    intro db acc total hnd
    obtain ⟨db1, acc1, total1, hstep, hpp1, hnd1, hno1, hpres1⟩ :=
      repriStep_spec env m db acc total it hnd
    obtain ⟨db2, acc2, total2, hfold, hpp2, hnd2, hno2, hpres2⟩ :=
      ih db1 acc1 total1 hnd1
    refine ⟨db2, acc2, total2, ?_, hpp1.trans hpp2, hnd2, ?_,
      fun m' it' h => hpres2 m' it' (hpres1 m' it' h)⟩
    · rw [List.foldlM_cons, hstep, exBind_ok]
      exact hfold
    · intro x hx
      rcases List.mem_cons.mp hx with h | h
      · subst h
        exact hpres2 m x hno1
      · exact hno2 x h

/-- The reprioritization pass over valid modules succeeds and leaves a
store all of whose scanned (module, item) pairs are at a fixed point. -/
theorem repriPass_spec (env : Env) (mods : List String) :
    ∀ (db : DB) (acc : List RepriEntry) (total : Nat),
    (∀ m ∈ mods, m ∈ validModules) → idsNodup db.priorities →
    ∃ db' acc' total',
      repriPass env mods (db, acc, total) = .ok (db', acc', total') ∧
        PPres db db' ∧ idsNodup db'.priorities ∧
        (∀ m ∈ mods, ∀ it ∈ list_items db' m, RepriNoop db' m it) ∧
        (∀ m' it', RepriNoop db m' it' → RepriNoop db' m' it') := by
  induction mods with
  | nil =>
    intro db acc total _ hnd
    exact ⟨db, acc, total, rfl, ppres_refl db, hnd,
      fun m hm => absurd hm (List.not_mem_nil m), fun _ _ h => h⟩
  | cons m t ih =>
    intro db acc total hv hnd
    obtain ⟨db1, acc1, total1, hfold1, hpp1, hnd1, hno1, hpres1⟩ :=
      repriItems_spec env m (list_items db m) db acc total hnd
    obtain ⟨db2, acc2, total2, hfold2, hpp2, hnd2, hno2, hpres2⟩ :=
      ih db1 acc1 total1 (fun m0 hm0 => hv m0 (List.mem_cons_of_mem m hm0)) hnd1
    refine ⟨db2, acc2, total2, ?_, hpp1.trans hpp2, hnd2, ?_,
      fun m' it' h => hpres2 m' it' (hpres1 m' it' h)⟩
    · unfold repriPass
      rw [List.foldlM_cons]
      dsimp only
      rw [hfold1, exBind_ok]
      exact hfold2
    · intro m0 hm0 it hit
      rcases List.mem_cons.mp hm0 with h | h
      · subst h
        rw [list_items_eq_of_ppres (hpp1.trans hpp2) m0
          (hv m0 (List.mem_cons_self m0 t))] at hit
        exact hpres2 m0 it (hno1 it hit)
      · exact hno2 m0 h it hit

/-- Folding `repriStep` over items that are all at a fixed point leaves
the state untouched. -/
theorem repriItems_noop (env : Env) (m : String) (items : List Item) :
    ∀ (db : DB) (acc : List RepriEntry) (total : Nat),
    (∀ it ∈ items, RepriNoop db m it) →
    items.foldlM (repriStep env m) (db, acc, total) = .ok (db, acc, total) := by
  induction items with
  | nil => intro db acc total _; rfl
  | cons it t ih =>
    intro db acc total h
    rw [List.foldlM_cons,
      repriStep_noop env m db acc total it (h it (List.mem_cons_self it t)),
      exBind_ok]
    exact ih db acc total (fun x hx => h x (List.mem_cons_of_mem it hx))

/-- The reprioritization pass over a store all of whose scanned pairs
are at a fixed point is the identity (with no entries and count 0). -/
theorem repriPass_noop (env : Env) (mods : List String) :
    ∀ (db : DB) (acc : List RepriEntry) (total : Nat),
    (∀ m ∈ mods, ∀ it ∈ list_items db m, RepriNoop db m it) →
    repriPass env mods (db, acc, total) = .ok (db, acc, total) := by
  induction mods with
  | nil => intro db acc total _; rfl
  | cons m t ih =>
    intro db acc total h
    unfold repriPass
    rw [List.foldlM_cons]
    dsimp only
    rw [repriItems_noop env m (list_items db m) db acc total
      (fun it hit => h m (List.mem_cons_self m t) it hit), exBind_ok]
    exact ih db acc total (fun m0 hm0 it hit => h m0 (List.mem_cons_of_mem m hm0) it hit)

/-- With no merge-flagged duplicate pair, the auto-merge pass does
nothing. -/
theorem mergePass_of_no_flags (env : Env) (dups : List DupPair)
    (st : DB × List MergeEntry × Nat)
    (h : dups.filter (fun d => d.suggested_action = "merge") = []) :
    mergePass env dups st = .ok st := by
  have hg : mergeGroups dups = [] := by
    unfold mergeGroups
    dsimp only
    rw [h]
    rfl
  unfold mergePass
  rw [hg]
  rfl

theorem archiveStep_skip (env : Env) (st : DB × List ArchEntry × Nat × Nat)
    (e : LowRel) (h : ¬ e.suggested_action = "archive") :
    archiveStep env st e = .ok st := by
  unfold archiveStep
  rw [if_neg h]

/-- With no archive-flagged low-relevance entry, the auto-archive pass
does nothing. -/
theorem archivePass_of_no_flags (env : Env) (lows : List LowRel) :
    lows.filter (fun e => e.suggested_action = "archive") = [] →
    ∀ st, archivePass env lows st = .ok st := by
  induction lows with
  | nil => intro _ st; rfl
  | cons e t ih =>
    intro h st
    rw [List.filter_cons] at h
    split at h
    next hpe => cases h
    next hpe =>
      have he : ¬ e.suggested_action = "archive" := by simpa using hpe
      unfold archivePass
      rw [List.foldlM_cons, archiveStep_skip env st e he, exBind_ok]
      exact ih h st

/-- C1 (corrected): a *second* `optimize(auto_merge_duplicates=true,
auto_archive_low_relevance=true)` immediately after a first one reports
`total_items_optimized = 0` only under extra conditions the original
claim omits: the internal review must find no merge-flagged duplicate
pair and no archive-flagged low-relevance item (and the stored priority
ids must be unique).  Under those conditions both calls succeed, and the
second call optimizes nothing: the first call's reprioritization pass
leaves every scanned (module, item) pair at a fixed point, the review
result is unchanged, and every pass of the second call is a no-op. -/
theorem C1_second_optimize_is_noop (req : OptimizeReq) (db : DB) (env : Env)
    (n : Nat) (rr : ReviewResult)
    (hmf : req.auto_merge_duplicates = true)
    (haf : req.auto_archive_low_relevance = true)
    (hvalid : (optModules req).find? (fun m => !(validModules.contains m)) = none)
    (hnd : idsNodup db.priorities)
    (hrev : review_priorities (optimizeReviewReq req.module) db env = .ok (rr, db))
    (hm : rr.potential_duplicates.filter (fun d => d.suggested_action = "merge") = [])
    (ha : rr.low_relevance_items.filter (fun e => e.suggested_action = "archive") = []) :
    ∃ r1 db1 n1 r2 db2 n2,
      optimize_priorities req db env n = .ok (r1, db1, n1) ∧
      optimize_priorities req db1 env n1 = .ok (r2, db2, n2) ∧
      r2.total_items_optimized = 0 := by
  have hv : ∀ m ∈ optModules req, m ∈ validModules := by
    intro m hm'
    have := List.find?_eq_none.mp hvalid m hm'
    simpa using this
  obtain ⟨db1, acc1, total1, hfoldR, hpp, hnd1, hnoAll, _⟩ :=
    repriPass_spec env (optModules req) db [] 0 hv hnd
  have hrun1 : optimize_priorities req db env n =
      .ok (⟨total1, [], [], acc1⟩, db1, n) := by
    unfold optimize_priorities
    rw [hvalid]
    dsimp only
    rw [hrev, exBind_ok]
    dsimp only
    rw [if_pos hmf, mergePass_of_no_flags env _ _ hm, exBind_ok]
    dsimp only
    rw [if_pos haf, archivePass_of_no_flags env _ ha, exBind_ok]
    dsimp only
    rw [hfoldR, exBind_ok]
    rfl
  have hrev2 : review_priorities (optimizeReviewReq req.module) db1 env =
      .ok (rr, db1) := review_eq_of_ppres hpp _ env rr hrev
  have hrun2 : optimize_priorities req db1 env n =
      .ok (⟨0, [], [], []⟩, db1, n) := by
    unfold optimize_priorities
    rw [hvalid]
    dsimp only
    rw [hrev2, exBind_ok]
    dsimp only
    rw [if_pos hmf, mergePass_of_no_flags env _ _ hm, exBind_ok]
    dsimp only
    rw [if_pos haf, archivePass_of_no_flags env _ ha, exBind_ok]
    dsimp only
    rw [repriPass_noop env (optModules req) db1 [] 0 hnoAll, exBind_ok]
    rfl
  exact ⟨⟨total1, [], [], acc1⟩, db1, n, ⟨0, [], [], []⟩, db1, n, hrun1, hrun2, rfl⟩

/-- C1 counterexample: on a store holding one short `business` item and
no priority record, the internal review flags the item for archiving
(baseline relevance, no usage), the first `optimize` run archives it
(one optimized item) — and the *second* run reports
`total_items_optimized = 1`, not 0: the archive pass re-counts the same
finding every run, because the review recomputes relevance from the
item (still present in `business`) while archiving only edits the
priority record. -/
theorem C1_counterexample :
    ((optimize_priorities c1req c1db tEnv 0).bind
        (fun p => optimize_priorities c1req p.2.1 tEnv p.2.2)).map
      (fun p => p.1.total_items_optimized) = .ok 1 ∧ (1 : Nat) ≠ 0 := by
  constructor
  · with_unfolding_all decide
  · decide

/-- C1 witness: on `c1wdb` (one business item with a medium-priority
record of usage 1 and relevance 0.25) the review reports one
low-relevance entry flagged `"review"` (not `"archive"`) and no
duplicates, so the corrected convergence theorem applies: the first
`optimize` reprioritizes the record to low, the second optimizes
nothing. -/
theorem C1_witness :
    ∃ r1 db1 n1 r2 db2 n2,
      optimize_priorities c1req c1wdb tEnv 0 = .ok (r1, db1, n1) ∧
      optimize_priorities c1req db1 tEnv n1 = .ok (r2, db2, n2) ∧
      r2.total_items_optimized = 0 :=
  C1_second_optimize_is_noop c1req c1wdb tEnv 0 c1wrr rfl rfl (by decide)
    (by unfold idsNodup; decide)
    (by with_unfolding_all decide)
    (by with_unfolding_all decide)
    (by with_unfolding_all decide)
